import Mathlib

/-!
# Accept-list gated advertising controller (`ble-08-whitelisting/src/main.c`)

A shallow embedding of the whitelisting sample.  The file-scope statics of the
C program (`pairing_mode_enabled`, `adv_work`) and the part of the BLE stack
the program talks to (the filter accept list, the sequence of stack calls made
so far) are the fields of one `State` value that every function threads
through.

The results of the stack calls are not decided by the program.  They are taken
from an environment `env : Nat → Int`: the call that is made when `k` stack
calls are already on record returns `env k`.  Quantifying over `env` is
quantifying over every outcome of every capability call.

The bond store also belongs to the stack: a handler run receives, as `bonds`,
the list that `bt_foreach_bond` enumerates for the identity at that moment.
-/

namespace Whitelisting

/-! ## Data model -/

/-- Peer identity `bt_addr_le_t`: the address-type tag and the 48-bit address. -/
structure bt_addr_le_t where
  type : Nat
  val : Nat
deriving DecidableEq

/-- Bond record `struct bt_bond_info`: only the peer address is read. -/
structure bt_bond_info where
  addr : bt_addr_le_t
deriving DecidableEq

/-- The two advertising parameter sets the program passes to `bt_le_adv_start`. -/
inductive AdvParam where
  | BT_LE_ADV_CONN_FAST_2
  | BT_LE_ADV_CONN_ACCEPT_LIST
deriving DecidableEq

/-- Advertising mode of the specification. -/
inductive AdvertisingMode where
  | Open
  | Restricted
deriving DecidableEq

/-- Mode of a parameter set: `BT_LE_ADV_CONN_ACCEPT_LIST` is the one that sets
`BT_LE_ADV_OPT_FILTER_CONN` (main.c lines 30-32). -/
def AdvParam.mode : AdvParam → AdvertisingMode
  | .BT_LE_ADV_CONN_FAST_2 => .Open
  | .BT_LE_ADV_CONN_ACCEPT_LIST => .Restricted

/-- A call into the BLE stack that acts on the radio or on the bond store. -/
inductive Call where
  | filter_accept_list_clear
  | filter_accept_list_add (addr : bt_addr_le_t)
  | adv_start (param : AdvParam)
  | adv_stop
  | unpair_all
deriving DecidableEq

/-- Outcome of the stack calls: the call made when `k` calls are on record
returns `env k` (0 is success, anything else is an error code). -/
abbrev Env := Nat → Int

/-- Controller state: the C statics plus the stack state the program drives. -/
structure State where
  /-- The static `pairing_mode_enabled`. -/
  pairing_mode_enabled : Bool
  /-- Whether `adv_work` is queued on the system work queue. -/
  adv_work_pending : Bool
  /-- The radio filter accept list, in insertion order. -/
  accept_list : List bt_addr_le_t
  /-- Every stack call made so far, oldest first. -/
  calls : List Call
  /-- Format strings handed to `LOG_INF` / `LOG_ERR` / `printk`, oldest first. -/
  log : List String
deriving DecidableEq

/-- State at reset: statics zero-initialised, nothing queued, empty accept list. -/
def State.initial : State :=
  { pairing_mode_enabled := false, adv_work_pending := false,
    accept_list := [], calls := [], log := [] }

/-- From `errno.h`: `EIO` is 5. -/
def EIO : Int := 5

/-- From `dk_buttons_and_leds.h`: `DK_BTN1_MSK` is `BIT(0)`. -/
def DK_BTN1_MSK : Nat := 1

/-- From `dk_buttons_and_leds.h`: `DK_BTN2_MSK` is `BIT(1)`. -/
def DK_BTN2_MSK : Nat := 2

/-- main.c line 16. -/
def BOND_ERASE_BUTTON_MASK : Nat := DK_BTN1_MSK

/-- main.c line 17. -/
def PAIRING_MODE_BUTTON_MASK : Nat := DK_BTN2_MSK

/-! ## The stack capabilities -/

/-- One `LOG_INF` / `LOG_ERR` / `printk` line. -/
def State.logf (s : State) (msg : String) : State :=
  { s with log := s.log ++ [msg] }

/-- Record a stack call. -/
def State.record (s : State) (c : Call) : State :=
  { s with calls := s.calls ++ [c] }

/-- Stack call `bt_le_filter_accept_list_clear()`: on success the radio list is emptied,
on failure it is left as it was. -/
def bt_le_filter_accept_list_clear (env : Env) (s : State) : Int × State :=
  let ret := env s.calls.length
  let s := s.record .filter_accept_list_clear
  if ret = 0 then (ret, { s with accept_list := [] }) else (ret, s)

/-- Stack call `bt_le_filter_accept_list_add(addr)`: on success the address is appended to
the radio list, on failure the list is left as it was. -/
def bt_le_filter_accept_list_add (env : Env) (addr : bt_addr_le_t) (s : State) :
    Int × State :=
  let ret := env s.calls.length
  let s := s.record (.filter_accept_list_add addr)
  if ret = 0 then (ret, { s with accept_list := s.accept_list ++ [addr] }) else (ret, s)

/-- Stack call `bt_le_adv_start(param, ad, ..., sd, ...)`. -/
def bt_le_adv_start (env : Env) (param : AdvParam) (s : State) : Int × State :=
  (env s.calls.length, s.record (.adv_start param))

/-- Stack call `bt_le_adv_stop()`. -/
def bt_le_adv_stop (env : Env) (s : State) : Int × State :=
  (env s.calls.length, s.record .adv_stop)

/-- Stack call `bt_unpair(BT_ID_DEFAULT, BT_ADDR_LE_ANY)`: bulk erase of the bond store. -/
def bt_unpair (env : Env) (s : State) : Int × State :=
  (env s.calls.length, s.record .unpair_all)

/-- Stack call `bt_foreach_bond(id, func, user_data)`: calls `func` once per stored bond,
in enumeration order; `bonds` is what the store holds for `id`. -/
def bt_foreach_bond {σ : Type} (bonds : List bt_bond_info)
    (func : bt_bond_info → σ → σ) (user_data : σ) : σ :=
  bonds.foldl (fun ctx bond => func bond ctx) user_data

/-- Kernel call `k_work_submit(&adv_work)` of Zephyr: queues the work item; a
no-op when the item is already queued. -/
def k_work_submit (s : State) : State :=
  { s with adv_work_pending := true }

/-! ## The program (main.c) -/

/-- main.c lines 35-39. -/
def start_advertising (s : State) : State :=
  k_work_submit (s.logf "Starting advertising")

/-- main.c lines 43-52. -/
def on_connected (conn : Nat) (err : Nat) (s : State) : State :=
  let _ := conn
  if err ≠ 0 then s.logf "Connection failed (err %u)"
  else s.logf "Connected"

/-- main.c lines 54-57. -/
def on_disconnected (conn : Nat) (reason : Nat) (s : State) : State :=
  let _ := (conn, reason)
  s.logf "Disconnected (reason %u)"

/-- main.c lines 59-72.  `bt_conn_get_dst` and `bt_addr_le_to_str` only read
the peer address to format the log line. -/
def on_security_changed (conn : Nat) (level : Nat) (err : Nat) (s : State) : State :=
  let _ := (conn, level)
  if err = 0 then s.logf "Link secured with %s (level %u)"
  else s.logf "Security setup failed with %s (level %u, err %d)"

/-- main.c lines 74-78. -/
def on_recycled (s : State) : State :=
  start_advertising (s.logf "Recycled callback called")

/-- main.c lines 114-148; `current_state` and `changed_mask` are `uint32_t`
bit masks. -/
def handle_button_event (env : Env) (current_state changed_mask : Nat) (s : State) :
    State :=
  let s :=
    if changed_mask &&& BOND_ERASE_BUTTON_MASK ≠ 0 then
      let bond_erase_requested := (current_state &&& BOND_ERASE_BUTTON_MASK) = 0
      if bond_erase_requested then
        let (ret, s) := bt_unpair env s
        if ret ≠ 0 then s.logf "Failed to erase bonds (err: %d)"
        else s.logf "Bond information erased"
      else s
    else s
  if changed_mask &&& PAIRING_MODE_BUTTON_MASK ≠ 0 then
    let pairing_requested := (current_state &&& PAIRING_MODE_BUTTON_MASK) = 0
    if pairing_requested then
      let s := { s with pairing_mode_enabled := true }
      let (ret, s) := bt_le_adv_stop env s
      let s := if ret ≠ 0 then s.logf "Failed to stop advertising (err: %d)" else s
      s.logf "Pairing mode enabled, advertising stopped"
    else s
  else s

/-- main.c lines 152-172.  The context is the `int` behind `added_count`; it is
an unbounded `Int` here because the bond store holds at most
`CONFIG_BT_MAX_PAIRED` entries, far fewer than `INT_MAX`. -/
def add_bonded_device_to_whitelist (env : Env) (bond : bt_bond_info)
    (ctx : Int × State) : Int × State :=
  let (added_count, s) := ctx
  if added_count < 0 then (added_count, s)
  else
    let (ret, s) := bt_le_filter_accept_list_add env bond.addr s
    if ret ≠ 0 then
      (- EIO, s.logf "Failed to add device to whitelist (err: %d)")
    else
      (added_count + 1, s.logf "Device added to whitelist: %02X %02X")

/-- main.c lines 174-187; `bonds` is the bond list stored under the identity
`id` that the C function hands to `bt_foreach_bond`. -/
def configure_whitelist (env : Env) (bonds : List bt_bond_info) (s : State) :
    Int × State :=
  let (ret, s) := bt_le_filter_accept_list_clear env s
  if ret ≠ 0 then (ret, s.logf "Whitelist clear failed (err: %d)")
  else
    let bonded_devices : Int := 0
    bt_foreach_bond bonds (add_bonded_device_to_whitelist env) (bonded_devices, s)

/-- main.c lines 189-245; `bonds` is the bond list stored under `BT_ID_DEFAULT`
when the handler runs. -/
def advertisement_handler (env : Env) (bonds : List bt_bond_info) (s : State) : State :=
  if s.pairing_mode_enabled then
    let (ret, s) := bt_le_filter_accept_list_clear env s
    let s := if ret ≠ 0 then s.logf "Whitelist clear failed (err: %d)"
             else s.logf "Whitelist cleared for pairing"
    let s := { s with pairing_mode_enabled := false }
    let (ret, s) := bt_le_adv_start env .BT_LE_ADV_CONN_FAST_2 s
    if ret ≠ 0 then s.logf "Advertising start failed (err: %d)"
    else s.logf "Advertising started for pairing"
  else
    let (whitelist_count, s) := configure_whitelist env bonds s
    if whitelist_count < 0 then s.logf "Whitelist configuration failed (err: %d)"
    else
      let (ret, s) :=
        if whitelist_count = 0 then
          bt_le_adv_start env .BT_LE_ADV_CONN_FAST_2
            (s.logf "No bonded devices found, advertising openly")
        else
          bt_le_adv_start env .BT_LE_ADV_CONN_ACCEPT_LIST
            (s.logf "Advertising with whitelist, bonded devices: %d")
      if ret ≠ 0 then s.logf "Advertising start failed (err: %d)"
      else s.logf "Advertising started successfully"

/-- The work queue takes `adv_work` off the queue before it runs the handler. -/
def State.dequeued (s : State) : State :=
  { s with adv_work_pending := false }

/-- One drain cycle of the system work queue for `adv_work`: a queued item is
taken off the queue and its handler (`advertisement_handler`, installed by
`k_work_init` in `main`) runs once; nothing happens when nothing is queued. -/
def work_queue_drain (env : Env) (bonds : List bt_bond_info) (s : State) : State :=
  if s.adv_work_pending then
    advertisement_handler env bonds s.dequeued
  else s

/-! ## Intents of the deferred executor -/

/-- The `PendingIntent` tags of the specification. -/
inductive Intent where
  | StartPairingAdvertising
  | StartNormalAdvertising
deriving DecidableEq

/-- How the program records an intent.  A pairing request is the pairing-button
edge seen by `handle_button_event` (button 2 changed, its state bit clear); a
normal start is the `recycled` callback, which submits the work item the same
way `main` does at boot. -/
def record_intent (env : Env) : Intent → State → State
  | .StartPairingAdvertising, s => handle_button_event env 0 PAIRING_MODE_BUTTON_MASK s
  | .StartNormalAdvertising, s => on_recycled s

/-- Record a sequence of intents, oldest first. -/
def record_intents (env : Env) (intents : List Intent) (s : State) : State :=
  intents.foldl (fun st i => record_intent env i st) s

/-! ## Observations -/

/-- The stack calls made while going from `s` to `s'`. -/
def callsSince (s s' : State) : List Call :=
  s'.calls.drop s.calls.length

/-- The parameter sets of the start-advertising calls in a trace, in order. -/
def startedParams (t : List Call) : List AdvParam :=
  t.filterMap (fun c => match c with
    | .adv_start p => some p
    | _ => none)

/-! ## Events -/

/-- The bond-erase edge of a button event: button 1 is in the changed mask and
its bit in the current state is clear (main.c lines 116-119). -/
def bondEraseEdge (current_state changed_mask : Nat) : Bool :=
  decide (changed_mask &&& BOND_ERASE_BUTTON_MASK ≠ 0) &&
    decide (current_state &&& BOND_ERASE_BUTTON_MASK = 0)

/-- The pairing-request edge of a button event: button 2 is in the changed mask
and its bit in the current state is clear (main.c lines 133-136). -/
def pairingEdge (current_state changed_mask : Nat) : Bool :=
  decide (changed_mask &&& PAIRING_MODE_BUTTON_MASK ≠ 0) &&
    decide (current_state &&& PAIRING_MODE_BUTTON_MASK = 0)

/-- What can happen to the running program: a notification from the stack
(the four entries of `connection_callbacks`), a button event from the DK
library, or a drain cycle of the work queue with the bond list stored at that
moment. -/
inductive Event where
  | connected (conn err : Nat)
  | disconnected (conn reason : Nat)
  | security_changed (conn level err : Nat)
  | recycled
  | button (current_state changed_mask : Nat)
  | drain (bonds : List bt_bond_info)
deriving DecidableEq

/-- The program's reaction to one event. -/
def step (env : Env) : Event → State → State
  | .connected conn err, s => on_connected conn err s
  | .disconnected conn reason, s => on_disconnected conn reason s
  | .security_changed conn level err, s => on_security_changed conn level err s
  | .recycled, s => on_recycled s
  | .button current_state changed_mask, s =>
      handle_button_event env current_state changed_mask s
  | .drain bonds, s => work_queue_drain env bonds s

/-- The program's reaction to a sequence of events, oldest first. -/
def run (env : Env) (events : List Event) (s : State) : State :=
  events.foldl (fun st e => step env e st) s

/-- Whether an event is a button event with the pairing-request edge. -/
def Event.isPairingRequest : Event → Bool
  | .button current_state changed_mask => pairingEdge current_state changed_mask
  | _ => false

/-- Bond number `n`: a public address (`type` 0) with value `n`. -/
def bond (n : Nat) : bt_bond_info := ⟨⟨0, n⟩⟩

/-- Three bonded peers. -/
def threeBonds : List bt_bond_info := [bond 1, bond 2, bond 3]

/-- Every stack call succeeds. -/
def envAllOk : Env := fun _ => 0

/-- Every stack call succeeds except call number `k`, which returns `err`. -/
def envFailAt (k : Nat) (err : Int) : Env := fun i => if i = k then err else 0


/-- A state the program reaches: boot with one bond (Restricted advertising on
a one-entry accept list), then a pairing-request button edge.  Four stack calls
are on record, so the next one is call number 4. -/
def pairingAfterRestricted : State :=
  handle_button_event envAllOk 0 PAIRING_MODE_BUTTON_MASK
    (work_queue_drain envAllOk [bond 1] (start_advertising State.initial))

/-- The program after boot with three bonds stored and every call succeeding:
it advertises Restricted on a three-entry accept list (five calls on record). -/
def restrictedAfterBoot : State :=
  work_queue_drain envAllOk threeBonds (start_advertising State.initial)

/-- Events that follow a disconnect and contain no `recycled` notification:
two drain cycles, a failed and a successful connect, a security change, a
bond-erase button edge and a pairing-request button edge. -/
def eventsWithoutRecycled : List Event :=
  [Event.drain threeBonds, Event.connected 1 62, Event.connected 1 0,
   Event.security_changed 1 2 0, Event.button 0 BOND_ERASE_BUTTON_MASK,
   Event.button 0 PAIRING_MODE_BUTTON_MASK, Event.drain threeBonds]

/-- Events without a pairing-request edge: a connection comes and goes, the
bond-erase button is pressed, and the pairing button is released (its state
bit is set). -/
def eventsWithoutPairingRequest : List Event :=
  [Event.connected 1 0, Event.disconnected 1 19, Event.button 0 BOND_ERASE_BUTTON_MASK,
   Event.button PAIRING_MODE_BUTTON_MASK PAIRING_MODE_BUTTON_MASK, Event.recycled]

end Whitelisting

/-!
# Connection reference tracking

The connectable-advertising sample (`03-ble-advert-connectable.md/src/main.c`)
and the connection-parameter sample (`04-ble-conn-params/src/main.c`) keep one
reference to the live connection in a file-scope pointer (`my_conn`,
`active_conn`).  A `struct bt_conn *` is modelled by a number that names the
connection object, the stored pointer by an `Option` (`NULL` is `none`), and
the stack calls made on connection objects are recorded as in the whitelisting
model, their results coming from `env`.
-/

namespace BtConn

/-- A stack call on a connection object. -/
inductive Call where
  | conn_ref (conn : Nat)
  | conn_unref (conn : Nat)
  | conn_get_info (conn : Nat)
  | conn_le_phy_update (conn : Nat)
  | conn_le_data_len_update (conn : Nat)
  | gatt_exchange_mtu (conn : Nat)
deriving DecidableEq

/-- Outcome of the stack calls: the call made when `k` calls are on record
returns `env k`. -/
abbrev Env := Nat → Int

/-- A notification of the connection callbacks both samples register. -/
inductive ConnEvent where
  | connected (conn err : Nat)
  | disconnected (conn reason : Nat)
deriving DecidableEq

/-- Number of references taken on connection `c` in a record of calls. -/
def acquisitions (c : Nat) (t : List Call) : Nat :=
  t.count (Call.conn_ref c)

/-- Number of references released on connection `c` in a record of calls. -/
def releases (c : Nat) (t : List Call) : Nat :=
  t.count (Call.conn_unref c)

end BtConn

namespace AdvertConnectable

open BtConn

/-- State of the connectable-advertising sample. -/
structure State where
  /-- The static `my_conn` (main.c line 20). -/
  my_conn : Option Nat
  /-- Every stack call on a connection object so far, oldest first. -/
  calls : List Call
  /-- Format strings handed to `LOG_INF` / `LOG_ERR`, oldest first. -/
  log : List String
deriving DecidableEq

/-- State at reset: `my_conn` is `NULL`. -/
def State.initial : State := { my_conn := none, calls := [], log := [] }

/-- One `LOG_INF` / `LOG_ERR` line. -/
def State.logf (s : State) (msg : String) : State :=
  { s with log := s.log ++ [msg] }

/-- Stack call `bt_conn_ref(conn)`: counts one more reference and hands the
same pointer back (the stack holds its own reference while the callback runs,
so the object is live). -/
def bt_conn_ref (conn : Nat) (s : State) : Option Nat × State :=
  (some conn, { s with calls := s.calls ++ [Call.conn_ref conn] })

/-- Stack call `bt_conn_unref(conn)`: gives one reference back. -/
def bt_conn_unref (conn : Nat) (s : State) : State :=
  { s with calls := s.calls ++ [Call.conn_unref conn] }

/-- Connectable sample, main.c lines 22-31. -/
def on_connected (conn err : Nat) (s : State) : State :=
  if err ≠ 0 then s.logf "Connection failed (err %u)"
  else
    let (r, s) := bt_conn_ref conn s
    { s with my_conn := r }

/-- Connectable sample, main.c lines 33-42; `conn` is not read. -/
def on_disconnected (conn reason : Nat) (s : State) : State :=
  let _ := (conn, reason)
  let s := s.logf "Disconnected (reason 0x%02x)"
  match s.my_conn with
  | some held =>
    let s := bt_conn_unref held s
    { s with my_conn := none }
  | none => s

/-- The sample's reaction to one notification. -/
def step : ConnEvent → State → State
  | .connected conn err, s => on_connected conn err s
  | .disconnected conn reason, s => on_disconnected conn reason s

/-- The sample's reaction to a sequence of notifications, oldest first. -/
def run (events : List ConnEvent) (s : State) : State :=
  events.foldl (fun st e => step e st) s

/-- Single-link assumption: a successful `connected` notification arrives only
while no connection reference is held. -/
def singleLink : List ConnEvent → State → Bool
  | [], _ => true
  | e :: es, s =>
    (match e with
      | .connected _ err => decide (err = 0 → s.my_conn = none)
      | .disconnected _ _ => true) && singleLink es (step e s)

/-- Balance of the reference count: references taken on a connection are the
references released on it, plus one if it is the stored connection. -/
def Balanced (s : State) : Prop :=
  ∀ c, acquisitions c s.calls = releases c s.calls + (if s.my_conn = some c then 1 else 0)

end AdvertConnectable

namespace ConnParams

open BtConn

/-- State of the connection-parameter sample. -/
structure State where
  /-- The static `active_conn` (main.c line 18). -/
  active_conn : Option Nat
  /-- Every stack call on a connection object so far, oldest first. -/
  calls : List Call
  /-- Format strings handed to `LOG_INF` / `LOG_ERR`, oldest first. -/
  log : List String
deriving DecidableEq

/-- State at reset: `active_conn` is `NULL`. -/
def State.initial : State := { active_conn := none, calls := [], log := [] }

/-- One `LOG_INF` / `LOG_ERR` line. -/
def State.logf (s : State) (msg : String) : State :=
  { s with log := s.log ++ [msg] }

/-- Record a stack call. -/
def State.record (s : State) (c : Call) : State :=
  { s with calls := s.calls ++ [c] }

/-- Stack call `bt_conn_ref(conn)`: counts one more reference and hands the
same pointer back. -/
def bt_conn_ref (conn : Nat) (s : State) : Option Nat × State :=
  (some conn, s.record (Call.conn_ref conn))

/-- Stack call `bt_conn_unref(conn)`: gives one reference back. -/
def bt_conn_unref (conn : Nat) (s : State) : State :=
  s.record (Call.conn_unref conn)

/-- Stack call `bt_conn_get_info(conn, &info)`. -/
def bt_conn_get_info (env : Env) (conn : Nat) (s : State) : Int × State :=
  (env s.calls.length, s.record (Call.conn_get_info conn))

/-- Stack call `bt_conn_le_phy_update(conn, &phy_pref)`. -/
def bt_conn_le_phy_update (env : Env) (conn : Nat) (s : State) : Int × State :=
  (env s.calls.length, s.record (Call.conn_le_phy_update conn))

/-- Stack call `bt_conn_le_data_len_update(conn, &len_params)`. -/
def bt_conn_le_data_len_update (env : Env) (conn : Nat) (s : State) : Int × State :=
  (env s.calls.length, s.record (Call.conn_le_data_len_update conn))

/-- Stack call `bt_gatt_exchange_mtu(conn, &params)`. -/
def bt_gatt_exchange_mtu (env : Env) (conn : Nat) (s : State) : Int × State :=
  (env s.calls.length, s.record (Call.gatt_exchange_mtu conn))

/-- Parameter sample, main.c lines 29-41. -/
def request_phy_update (env : Env) (conn : Nat) (s : State) : State :=
  let (err, s) := bt_conn_le_phy_update env conn s
  if err ≠ 0 then s.logf "PHY update failed (%d)" else s

/-- Parameter sample, main.c lines 63-74. -/
def request_data_len_update (env : Env) (conn : Nat) (s : State) : State :=
  let (err, s) := bt_conn_le_data_len_update env conn s
  if err ≠ 0 then s.logf "Failed to update data length (%d)" else s

/-- Parameter sample, main.c lines 96-106. -/
def trigger_mtu_exchange (env : Env) (conn : Nat) (s : State) : State :=
  let (err, s) := bt_gatt_exchange_mtu env conn s
  if err ≠ 0 then s.logf "MTU exchange failed (%d)" else s

/-- Parameter sample, main.c lines 109-129. -/
def on_conn_established (env : Env) (conn err : Nat) (s : State) : State :=
  if err ≠ 0 then s.logf "Failed to connect (err %u)"
  else
    let (r, s) := bt_conn_ref conn s
    let s := { s with active_conn := r }
    let s := s.logf "Device connected"
    let (ret, s) := bt_conn_get_info env conn s
    let s :=
      if ret = 0 then s.logf "Initial conn params: %.2f ms, latency %u, timeout %u ms"
      else s
    let s := request_phy_update env conn s
    let s := request_data_len_update env conn s
    trigger_mtu_exchange env conn s

/-- Parameter sample, main.c lines 132-140; `conn` is not read. -/
def on_conn_terminated (conn reason : Nat) (s : State) : State :=
  let _ := (conn, reason)
  let s := s.logf "Disconnected (reason: 0x%02x)"
  match s.active_conn with
  | some held =>
    let s := bt_conn_unref held s
    { s with active_conn := none }
  | none => s

/-- The sample's reaction to one notification. -/
def step (env : Env) : ConnEvent → State → State
  | .connected conn err, s => on_conn_established env conn err s
  | .disconnected conn reason, s => on_conn_terminated conn reason s

/-- The sample's reaction to a sequence of notifications, oldest first. -/
def run (env : Env) (events : List ConnEvent) (s : State) : State :=
  events.foldl (fun st e => step env e st) s

/-- Single-link assumption: a successful `connected` notification arrives only
while no connection reference is held. -/
def singleLink (env : Env) : List ConnEvent → State → Bool
  | [], _ => true
  | e :: es, s =>
    (match e with
      | .connected _ err => decide (err = 0 → s.active_conn = none)
      | .disconnected _ _ => true) && singleLink env es (step env e s)

/-- Balance of the reference count: references taken on a connection are the
references released on it, plus one if it is the stored connection. -/
def Balanced (s : State) : Prop :=
  ∀ c, acquisitions c s.calls
    = releases c s.calls + (if s.active_conn = some c then 1 else 0)

end ConnParams

namespace BtConn

/-- A link that fails to come up, then two links that come up and go down one
after the other, with a stray second `disconnected` in between. -/
def twoLinks : List ConnEvent :=
  [ConnEvent.connected 7 62, ConnEvent.connected 7 0, ConnEvent.disconnected 7 19,
   ConnEvent.disconnected 7 19, ConnEvent.connected 8 0, ConnEvent.disconnected 8 8]

end BtConn

/-!
# The second whitelisting variant (`ble-08-whitelisting/src/text.c`)

The same controller as written in the course exercise.  It runs on the same
`Whitelisting.State`: its static `pairing_mode` is the field
`pairing_mode_enabled`.  Its `BT_LE_ADV_CONN_ACCEPT_LIST` (text.c lines 43-45)
sets `BT_LE_ADV_OPT_CONN | BT_LE_ADV_OPT_FILTER_CONN` and, unlike the one of
main.c, not `BT_LE_ADV_OPT_FILTER_SCAN_REQ`; both filter connections by the
accept list and are the parameter set `AdvParam.BT_LE_ADV_CONN_ACCEPT_LIST`
(mode Restricted) of the model.
-/

namespace WhitelistingText

open Whitelisting

/-- Exercise variant, text.c lines 60-81. -/
def setup_accept_list_cb (env : Env) (info : bt_bond_info) (user_data : Int × State) :
    Int × State :=
  let (bond_cnt, s) := user_data
  if bond_cnt < 0 then (bond_cnt, s)
  else
    let (err, s) := bt_le_filter_accept_list_add env info.addr s
    let s := s.logf "Added following peer to accept list: %x %x"
    if err ≠ 0 then
      (- Whitelisting.EIO, s.logf "Cannot add peer to filter accept list (err: %d)")
    else
      (bond_cnt + 1, s)

/-- Exercise variant, text.c lines 84-99; `bonds` is the bond list stored under
`local_id`. -/
def setup_accept_list (env : Env) (bonds : List bt_bond_info) (s : State) : Int × State :=
  let (err, s) := bt_le_filter_accept_list_clear env s
  if err ≠ 0 then (err, s.logf "Cannot clear accept list (err: %d)")
  else
    let bond_cnt : Int := 0
    bt_foreach_bond bonds (setup_accept_list_cb env) (bond_cnt, s)

/-- Exercise variant, text.c lines 102-164; `bonds` is the bond list stored
under `BT_ID_DEFAULT` when the handler runs. -/
def adv_work_handler (env : Env) (bonds : List bt_bond_info) (s : State) : State :=
  if s.pairing_mode_enabled = true then
    let (err, s) := bt_le_filter_accept_list_clear env s
    let s := if err ≠ 0 then s.logf "Cannot clear accept list (err: %d)"
             else s.logf "Accept list cleared succesfully"
    let s := { s with pairing_mode_enabled := false }
    let (err, s) := bt_le_adv_start env .BT_LE_ADV_CONN_FAST_2 s
    if err ≠ 0 then s.logf "Advertising failed to start (err %d)"
    else s.logf "Advertising successfully started"
  else
    let (allowed_cnt, s) := setup_accept_list env bonds s
    if allowed_cnt < 0 then s.logf "Acceptlist setup failed (err:%d)"
    else
      let (err, s) :=
        if allowed_cnt = 0 then
          bt_le_adv_start env .BT_LE_ADV_CONN_FAST_2
            (s.logf "Advertising with no Accept list")
        else
          bt_le_adv_start env .BT_LE_ADV_CONN_ACCEPT_LIST
            ((s.logf "Advertising with Accept list").logf "Acceptlist setup number  = %d")
      if err ≠ 0 then s.logf "Advertising failed to start (err %d)"
      else s.logf "Advertising successfully started"

/-- Two controller states that differ at most in their log. -/
def sameRadio (s t : State) : Prop :=
  s.pairing_mode_enabled = t.pairing_mode_enabled ∧
  s.adv_work_pending = t.adv_work_pending ∧
  s.accept_list = t.accept_list ∧
  s.calls = t.calls

end WhitelistingText

/-!
# GATT server sample (`ble-06-gatt-server/src/my_service.c`)

A command characteristic whose write handler sends an indication or a
notification.  The write buffer is the list of its bytes, `len` is the length
of that list.
-/

namespace GattServer

/-- A send request made to the GATT layer. -/
inductive Call where
  | gatt_indicate
  | gatt_notify
deriving DecidableEq

/-- Outcome of the stack calls: the call made when `k` calls are on record
returns `env k`. -/
abbrev Env := Nat → Int

/-- The statics of the service. -/
structure State where
  /-- The static `notify_enabled`. -/
  notify_enabled : Bool
  /-- The static `indicate_enabled`. -/
  indicate_enabled : Bool
  /-- The static `dummy_cmd`, a `uint8_t`. -/
  dummy_cmd : Nat
  /-- Every send request so far, oldest first. -/
  calls : List Call
  /-- Format strings handed to the log macros, oldest first. -/
  log : List String
deriving DecidableEq

/-- State at reset: statics zero-initialised. -/
def State.initial : State :=
  { notify_enabled := false, indicate_enabled := false, dummy_cmd := 0, calls := [],
    log := [] }

/-- One log line. -/
def State.logf (s : State) (msg : String) : State :=
  { s with log := s.log ++ [msg] }

/-- From `gatt.h`: `BT_GATT_CCC_NOTIFY` is 0x0001. -/
def BT_GATT_CCC_NOTIFY : Nat := 1

/-- From `gatt.h`: `BT_GATT_CCC_INDICATE` is 0x0002. -/
def BT_GATT_CCC_INDICATE : Nat := 2

/-- From `att.h`: `BT_ATT_ERR_INVALID_ATTRIBUTE_LEN` is 0x0d. -/
def BT_ATT_ERR_INVALID_ATTRIBUTE_LEN : Int := 13

/-- From `gatt.h`: `BT_GATT_ERR(x)` is `-(x)`. -/
def BT_GATT_ERR (x : Int) : Int := -x

/-- From `errno.h`: `EACCES` is 13. -/
def EACCES : Int := 13

/-- Stack call `bt_gatt_indicate(NULL, &ind_params)`. -/
def bt_gatt_indicate (env : Env) (s : State) : Int × State :=
  (env s.calls.length, { s with calls := s.calls ++ [Call.gatt_indicate] })

/-- Stack call `bt_gatt_notify(NULL, &test_svc.attrs[6], &dummy_data, 4)`. -/
def bt_gatt_notify (env : Env) (s : State) : Int × State :=
  (env s.calls.length, { s with calls := s.calls ++ [Call.gatt_notify] })

/-- Server sample, my_service.c lines 18-22. -/
def critical_ccc_cfg_changed (value : Nat) (s : State) : State :=
  let s := { s with indicate_enabled := decide (value = BT_GATT_CCC_INDICATE) }
  s.logf "Indicate enabled: %s"

/-- Server sample, my_service.c lines 24-28. -/
def noncritical_ccc_cfg_changed (value : Nat) (s : State) : State :=
  let s := { s with notify_enabled := decide (value = BT_GATT_CCC_NOTIFY) }
  s.logf "Notify enabled: %s"

/-- Server sample, my_service.c lines 52-91; `buf` holds the `len` bytes
written, `offset` and `flags` are not read. -/
def write_cmd (env : Env) (buf : List Nat) (offset flags : Nat) (s : State) : Int × State :=
  let _ := (offset, flags)
  if buf.length ≠ 1 then (BT_GATT_ERR BT_ATT_ERR_INVALID_ATTRIBUTE_LEN, s)
  else
    let s := { s with dummy_cmd := buf.headD 0 % 256 }
    if s.dummy_cmd ≠ 0 then
      if !s.indicate_enabled then
        (- EACCES, s.logf "Indications not enabled")
      else
        bt_gatt_indicate env (s.logf "Indicating critical data: %x")
    else
      if !s.indicate_enabled then
        (- EACCES, s.logf "Indications not enabled")
      else
        bt_gatt_notify env (s.logf "Notifying non-critical data: %x")

/-- A client that subscribed to notifications only: the notify CCC is written
with `BT_GATT_CCC_NOTIFY`, the indicate CCC was never enabled. -/
def notifyOnly : State :=
  noncritical_ccc_cfg_changed BT_GATT_CCC_NOTIFY State.initial

/-- A client that subscribed to indications only. -/
def indicateOnly : State :=
  critical_ccc_cfg_changed BT_GATT_CCC_INDICATE State.initial

end GattServer

/-!
# GATT read/write sample (`05-ble-gatt-client.md/src/my_service.c`)
-/

namespace MyService

/-- The statics of the service.  The function pointer `service_cb.on_write` is
an `Option` over a number naming the function (`NULL` is `none`). -/
structure State where
  /-- The static `stored_value`, a `uint8_t`. -/
  stored_value : Nat
  /-- The member `service_cb.on_write`. -/
  service_cb_on_write : Option Nat
  /-- Every call made through `service_cb.on_write`: the function called and
  its argument, oldest first. -/
  cb_calls : List (Nat × Nat)
  /-- Format strings handed to the log macros, oldest first. -/
  log : List String
deriving DecidableEq

/-- State at reset: `stored_value = 0`, no callback registered. -/
def State.initial : State :=
  { stored_value := 0, service_cb_on_write := none, cb_calls := [], log := [] }

/-- One log line. -/
def State.logf (s : State) (msg : String) : State :=
  { s with log := s.log ++ [msg] }

/-- From `att.h`: `BT_ATT_ERR_INVALID_OFFSET` is 0x07. -/
def BT_ATT_ERR_INVALID_OFFSET : Int := 7

/-- From `att.h`: `BT_ATT_ERR_INVALID_ATTRIBUTE_LEN` is 0x0d. -/
def BT_ATT_ERR_INVALID_ATTRIBUTE_LEN : Int := 13

/-- From `gatt.h`: `BT_GATT_ERR(x)` is `-(x)`. -/
def BT_GATT_ERR (x : Int) : Int := -x

/-- Stack helper `bt_gatt_attr_read(conn, attr, buf, buf_len, offset, value,
value_len)`: an offset past the value is an error; otherwise
`min(buf_len, value_len - offset)` bytes of the value, from `offset` on, are
copied out and their number is returned. -/
def bt_gatt_attr_read (buf_len offset : Nat) (value : List Nat) : Int × List Nat :=
  if offset > value.length then (BT_GATT_ERR BT_ATT_ERR_INVALID_OFFSET, [])
  else
    let len := min buf_len (value.length - offset)
    (len, (value.drop offset).take len)

/-- Read/write sample, my_service.c lines 13-18: the result and the bytes
copied to the reader. -/
def on_read (len offset : Nat) (s : State) : (Int × List Nat) × State :=
  let s := s.logf "Read request received"
  (bt_gatt_attr_read len offset [s.stored_value], s)

/-- Read/write sample, my_service.c lines 20-39; `buf` holds the `len` bytes
written, `flags` is not read. -/
def on_write (buf : List Nat) (offset flags : Nat) (s : State) : Int × State :=
  let _ := flags
  if offset ≠ 0 ∨ buf.length ≠ 1 then (BT_GATT_ERR BT_ATT_ERR_INVALID_ATTRIBUTE_LEN, s)
  else
    let val := buf.headD 0 % 256
    let s := { s with stored_value := val }
    let s := s.logf "New value written: %d"
    let s :=
      match s.service_cb_on_write with
      | some f => { s with cb_calls := s.cb_calls ++ [(f, val)] }
      | none => s
    (buf.length, s)

/-- Read/write sample, my_service.c lines 55-63; `cb` is the pointer argument
(`none` is `NULL`), pointing to a struct whose member `on_write` may itself be
`NULL`. -/
def my_service_init (cb : Option (Option Nat)) (s : State) : Int × State :=
  let s :=
    match cb with
    | some on_write => { s with service_cb_on_write := on_write }
    | none => s
  (0, s.logf "Custom service initialized")

/-- The function `on_value_written` of the sample's `main.c`. -/
def on_value_written : Nat := 1

end MyService

/-!
# UART command line (`sdk-01-uart/src/main.c`)

Characters are bytes (numbers below 256).  A store into `cmd_buf` outside the
array has no defined result, so `uart_cb` is a partial function of the state:
`none` stands for an out-of-bounds store.
-/

namespace UartCli

/-- main.c line 9. -/
def CMD_BUF_SIZE : Nat := 128

/-- A message handed to `print` (main.c lines 37-47), by the place it comes
from. -/
inductive Out where
  | ready
  | prompt
  | erase
  | echo (c : Nat)
  | hello
  | sum
  | usage
  | unknown
  | reboot
deriving DecidableEq

/-- The statics of the command line and what it has handed to the outside. -/
structure State where
  /-- The array `cmd_buf`. -/
  cmd_buf : List Nat
  /-- The static `cmd_len`, a `size_t`. -/
  cmd_len : Nat
  /-- The messages handed to `print`, and the reboots, oldest first. -/
  out : List Out
  /-- Number of `uart_rx_enable` calls. -/
  rx_enables : Nat
deriving DecidableEq

/-- State at reset: `cmd_buf` zeroed, `cmd_len = 0`. -/
def State.initial : State :=
  { cmd_buf := List.replicate CMD_BUF_SIZE 0, cmd_len := 0, out := [], rx_enables := 0 }

/-- The function `print` (main.c lines 37-47): every message the program prints
is shorter than `PRINT_MSG_SIZE`, so it is queued. -/
def print (msg : Out) (s : State) : State :=
  { s with out := s.out ++ [msg] }

/-- The bytes of `"hello"`. -/
def str_hello : List Nat := [104, 101, 108, 108, 111]

/-- The bytes of `"add "`. -/
def str_add : List Nat := [97, 100, 100, 32]

/-- The bytes of `"reboot"`. -/
def str_reboot : List Nat := [114, 101, 98, 111, 111, 116]

/-- The C string that starts at the beginning of a buffer: the bytes before the
first NUL. -/
def cstring (buf : List Nat) : List Nat :=
  buf.takeWhile (fun b => b ≠ 0)

/-- The space-separated tokens `strtok_r` finds in a string. -/
def tokens (str : List Nat) : List (List Nat) :=
  (str.splitOn 32).filter (fun t => t ≠ [])

/-- What `main` does (main.c lines 147-159) with the UART ready: receiving is
enabled and the banner and the prompt are printed. -/
def boot (s : State) : State :=
  print Out.prompt (print Out.ready { s with rx_enables := s.rx_enables + 1 })

/-- The call `sys_reboot(SYS_REBOOT_COLD)`: it does not return; the program
starts again with its statics initialised and `main` runs. -/
def sys_reboot (s : State) : State :=
  boot { State.initial with out := s.out ++ [Out.reboot], rx_enables := s.rx_enables }

/-- The function `process_command` (main.c lines 102-141) on the string `cmd`.
The sum printed by `add` is recorded without its value.  The flag returned is
true when the command was `reboot`: the call did not return and the state is
the one after the restart. -/
def process_command (cmd : List Nat) (s : State) : Bool × State :=
  if cmd.take 5 = str_hello then (false, print Out.hello s)
  else if cmd.take 4 = str_add then
    if 2 ≤ (tokens (cmd.drop 4)).length then (false, print Out.sum s)
    else (false, print Out.usage s)
  else if cmd.take 6 = str_reboot then (true, sys_reboot s)
  else (false, print Out.unknown s)

/-- A store `cmd_buf[i] = v`; `none` when `i` is outside the array. -/
def store (s : State) (i v : Nat) : Option State :=
  if i < s.cmd_buf.length then some { s with cmd_buf := s.cmd_buf.set i v } else none

/-- The function `isprint` of the C locale. -/
def isprint (c : Nat) : Bool :=
  decide (32 ≤ c ∧ c ≤ 126)

/-- An event reported to the UART callback. -/
inductive UartEvent where
  | UART_RX_RDY (c : Nat)
  | UART_RX_DISABLED
  | other
deriving DecidableEq

/-- The function `uart_cb` (main.c lines 53-96); `c` is the byte the event
delivers in `rx_buf`. -/
def uart_cb (evt : UartEvent) (s : State) : Option State :=
  match evt with
  | .UART_RX_RDY c =>
    if c = 13 ∨ c = 10 then
      match store s s.cmd_len 0 with
      | none => none
      | some s =>
        let (restarted, s) := process_command (cstring s.cmd_buf) s
        if restarted then some s
        else
          let s := { s with cmd_len := 0 }
          some (print Out.prompt s)
    else if c = 8 ∨ c = 127 then
      if s.cmd_len > 0 then
        some (print Out.erase { s with cmd_len := s.cmd_len - 1 })
      else some s
    else if isprint c ∧ s.cmd_len < CMD_BUF_SIZE - 1 then
      match store s s.cmd_len c with
      | none => none
      | some s =>
        let s := { s with cmd_len := s.cmd_len + 1 }
        some (print (Out.echo c) s)
    else some s
  | .UART_RX_DISABLED => some { s with rx_enables := s.rx_enables + 1 }
  | .other => some s

/-- The callback over a sequence of events, oldest first; `none` as soon as one
store is out of bounds. -/
def uart_run : List UartEvent → State → Option State
  | [], s => some s
  | e :: es, s =>
    match uart_cb e s with
    | none => none
    | some s => uart_run es s

/-- The state is within the array: the buffer has its 128 bytes and `cmd_len`
leaves room for the terminating NUL. -/
def InBounds (s : State) : Prop :=
  s.cmd_buf.length = CMD_BUF_SIZE ∧ s.cmd_len ≤ CMD_BUF_SIZE - 1

/-- The characters `hi`, two backspaces, a third backspace on the empty line,
`hello` and a carriage return. -/
def typedLine : List UartEvent :=
  [UartEvent.UART_RX_RDY 104, UartEvent.UART_RX_RDY 105, UartEvent.UART_RX_RDY 8,
   UartEvent.UART_RX_RDY 127, UartEvent.UART_RX_RDY 8, UartEvent.UART_RX_RDY 104,
   UartEvent.UART_RX_RDY 101, UartEvent.UART_RX_RDY 108, UartEvent.UART_RX_RDY 108,
   UartEvent.UART_RX_RDY 111, UartEvent.UART_RX_RDY 13]

end UartCli

namespace Whitelisting

/-! ## Frame lemmas for the primitive operations -/

@[simp] theorem logf_calls (s : State) (m : String) : (s.logf m).calls = s.calls := rfl
@[simp] theorem logf_accept_list (s : State) (m : String) :
    (s.logf m).accept_list = s.accept_list := rfl
@[simp] theorem logf_pairing (s : State) (m : String) :
    (s.logf m).pairing_mode_enabled = s.pairing_mode_enabled := rfl
@[simp] theorem logf_pending (s : State) (m : String) :
    (s.logf m).adv_work_pending = s.adv_work_pending := rfl

@[simp] theorem record_calls (s : State) (c : Call) : (s.record c).calls = s.calls ++ [c] := rfl
@[simp] theorem record_accept_list (s : State) (c : Call) :
    (s.record c).accept_list = s.accept_list := rfl
@[simp] theorem record_pairing (s : State) (c : Call) :
    (s.record c).pairing_mode_enabled = s.pairing_mode_enabled := rfl
@[simp] theorem record_pending (s : State) (c : Call) :
    (s.record c).adv_work_pending = s.adv_work_pending := rfl

/-- What one callback invocation does when the running count is negative. -/
theorem add_bonded_neg (env : Env) (b : bt_bond_info) (c : Int) (s : State) (hc : c < 0) :
    add_bonded_device_to_whitelist env b (c, s) = (c, s) := by
  simp [add_bonded_device_to_whitelist, hc]

/-- What one callback invocation does when the add succeeds. -/
theorem add_bonded_ok (env : Env) (b : bt_bond_info) (c : Int) (s : State) (hc : 0 ≤ c)
    (hok : env s.calls.length = 0) :
    (add_bonded_device_to_whitelist env b (c, s)).1 = c + 1 ∧
    (add_bonded_device_to_whitelist env b (c, s)).2.calls
      = s.calls ++ [Call.filter_accept_list_add b.addr] ∧
    (add_bonded_device_to_whitelist env b (c, s)).2.accept_list
      = s.accept_list ++ [b.addr] ∧
    (add_bonded_device_to_whitelist env b (c, s)).2.pairing_mode_enabled
      = s.pairing_mode_enabled ∧
    (add_bonded_device_to_whitelist env b (c, s)).2.adv_work_pending
      = s.adv_work_pending := by
  have hc' : ¬ c < 0 := not_lt.mpr hc
  simp [add_bonded_device_to_whitelist, bt_le_filter_accept_list_add, hc', hok]

/-- What one callback invocation does when the add fails. -/
theorem add_bonded_fail (env : Env) (b : bt_bond_info) (c : Int) (s : State) (hc : 0 ≤ c)
    (hfail : env s.calls.length ≠ 0) :
    (add_bonded_device_to_whitelist env b (c, s)).1 = - EIO ∧
    (add_bonded_device_to_whitelist env b (c, s)).2.calls
      = s.calls ++ [Call.filter_accept_list_add b.addr] ∧
    (add_bonded_device_to_whitelist env b (c, s)).2.accept_list = s.accept_list ∧
    (add_bonded_device_to_whitelist env b (c, s)).2.pairing_mode_enabled
      = s.pairing_mode_enabled ∧
    (add_bonded_device_to_whitelist env b (c, s)).2.adv_work_pending
      = s.adv_work_pending := by
  have hc' : ¬ c < 0 := not_lt.mpr hc
  simp [add_bonded_device_to_whitelist, bt_le_filter_accept_list_add, hc', hfail]

theorem foreach_cons {σ : Type} (b : bt_bond_info) (bs : List bt_bond_info)
    (f : bt_bond_info → σ → σ) (x : σ) :
    bt_foreach_bond (b :: bs) f x = bt_foreach_bond bs f (f b x) := rfl

/-- Once the count is negative the enumeration changes nothing more. -/
theorem foreach_neg (env : Env) (bonds : List bt_bond_info) (c : Int) (s : State)
    (hc : c < 0) :
    bt_foreach_bond bonds (add_bonded_device_to_whitelist env) (c, s) = (c, s) := by
  induction bonds with
  | nil => rfl
  | cons b bs ih => rw [foreach_cons, add_bonded_neg env b c s hc]; exact ih

/-- Enumeration in which every add succeeds. -/
theorem foreach_ok (env : Env) (bonds : List bt_bond_info) :
    ∀ (c : Int) (s : State), 0 ≤ c →
      (∀ i, i < bonds.length → env (s.calls.length + i) = 0) →
      (bt_foreach_bond bonds (add_bonded_device_to_whitelist env) (c, s)).1
        = c + bonds.length ∧
      (bt_foreach_bond bonds (add_bonded_device_to_whitelist env) (c, s)).2.calls
        = s.calls ++ bonds.map (fun b => Call.filter_accept_list_add b.addr) ∧
      (bt_foreach_bond bonds (add_bonded_device_to_whitelist env) (c, s)).2.accept_list
        = s.accept_list ++ bonds.map (fun b => b.addr) ∧
      (bt_foreach_bond bonds (add_bonded_device_to_whitelist env) (c, s)).2.pairing_mode_enabled
        = s.pairing_mode_enabled ∧
      (bt_foreach_bond bonds (add_bonded_device_to_whitelist env) (c, s)).2.adv_work_pending
        = s.adv_work_pending := by
  induction bonds with
  | nil => intro c s _ _; simp [bt_foreach_bond]
  | cons b bs ih =>
    intro c s hc hok
    have h0 : env s.calls.length = 0 := by simpa using hok 0 (by simp)
    obtain ⟨h1, h2, h3, h4, h5⟩ := add_bonded_ok env b c s hc h0
    rw [foreach_cons]
    generalize hst : add_bonded_device_to_whitelist env b (c, s) = st at h1 h2 h3 h4 h5
    obtain ⟨c1, s1⟩ := st
    simp only at h1 h2 h3 h4 h5
    have hc1 : 0 ≤ c1 := by omega
    have hok1 : ∀ i, i < bs.length → env (s1.calls.length + i) = 0 := by
      intro i hi
      have := hok (i + 1) (by simp; omega)
      rw [h2]; simp only [List.length_append, List.length_singleton]
      rw [show s.calls.length + 1 + i = s.calls.length + (i + 1) by omega]; exact this
    obtain ⟨g1, g2, g3, g4, g5⟩ := ih c1 s1 hc1 hok1
    refine ⟨?_, ?_, ?_, ?_, ?_⟩
    · rw [g1, h1]; simp only [List.length_cons]; push_cast; ring
    · rw [g2, h2]; simp
    · rw [g3, h3]; simp
    · rw [g4, h4]
    · rw [g5, h5]


/-- Enumeration in which the add for the bond at index `k` is the first to fail. -/
theorem foreach_fail (env : Env) (bonds : List bt_bond_info) :
    ∀ (k : Nat) (c : Int) (s : State), 0 ≤ c → k < bonds.length →
      (∀ i, i < k → env (s.calls.length + i) = 0) →
      env (s.calls.length + k) ≠ 0 →
      (bt_foreach_bond bonds (add_bonded_device_to_whitelist env) (c, s)).1 = - EIO ∧
      (bt_foreach_bond bonds (add_bonded_device_to_whitelist env) (c, s)).2.calls
        = s.calls ++ (bonds.take (k + 1)).map (fun b => Call.filter_accept_list_add b.addr) ∧
      (bt_foreach_bond bonds (add_bonded_device_to_whitelist env) (c, s)).2.accept_list
        = s.accept_list ++ (bonds.take k).map (fun b => b.addr) ∧
      (bt_foreach_bond bonds (add_bonded_device_to_whitelist env) (c, s)).2.pairing_mode_enabled
        = s.pairing_mode_enabled ∧
      (bt_foreach_bond bonds (add_bonded_device_to_whitelist env) (c, s)).2.adv_work_pending
        = s.adv_work_pending := by
  induction bonds with
  | nil => intro k c s _ hk; simp at hk
  | cons b bs ih =>
    intro k c s hc hk hok hfail
    rw [foreach_cons]
    cases k with
    | zero =>
      obtain ⟨h1, h2, h3, h4, h5⟩ := add_bonded_fail env b c s hc (by simpa using hfail)
      generalize add_bonded_device_to_whitelist env b (c, s) = st at h1 h2 h3 h4 h5
      obtain ⟨c1, s1⟩ := st
      simp only at h1 h2 h3 h4 h5
      have hneg : c1 < 0 := by rw [h1]; decide
      rw [foreach_neg env bs c1 s1 hneg]
      simp [h1, h2, h3, h4, h5]
    | succ k =>
      have h0 : env s.calls.length = 0 := by simpa using hok 0 (by omega)
      obtain ⟨h1, h2, h3, h4, h5⟩ := add_bonded_ok env b c s hc h0
      generalize add_bonded_device_to_whitelist env b (c, s) = st at h1 h2 h3 h4 h5
      obtain ⟨c1, s1⟩ := st
      simp only at h1 h2 h3 h4 h5
      have hlen : s1.calls.length + k = s.calls.length + (k + 1) := by
        rw [h2]; simp only [List.length_append, List.length_singleton]; omega
      have hok1 : ∀ i, i < k → env (s1.calls.length + i) = 0 := by
        intro i hi
        have := hok (i + 1) (by omega)
        rw [h2]; simp only [List.length_append, List.length_singleton]
        rw [show s.calls.length + 1 + i = s.calls.length + (i + 1) by omega]; exact this
      have hfail1 : env (s1.calls.length + k) ≠ 0 := by rw [hlen]; exact hfail
      obtain ⟨g1, g2, g3, g4, g5⟩ :=
        ih k c1 s1 (by omega) (by simpa using hk) hok1 hfail1
      refine ⟨g1, ?_, ?_, ?_, ?_⟩
      · rw [g2, h2]; simp
      · rw [g3, h3]; simp
      · rw [g4, h4]
      · rw [g5, h5]

/-- Whatever the outcomes, the enumeration only appends accept-list adds to the
call record and leaves the two flags alone. -/
theorem foreach_frame (env : Env) (bonds : List bt_bond_info) :
    ∀ (c : Int) (s : State),
      (∃ t, (bt_foreach_bond bonds (add_bonded_device_to_whitelist env) (c, s)).2.calls
              = s.calls ++ t ∧
            ∀ x ∈ t, ∃ a, x = Call.filter_accept_list_add a) ∧
      (bt_foreach_bond bonds (add_bonded_device_to_whitelist env) (c, s)).2.pairing_mode_enabled
        = s.pairing_mode_enabled ∧
      (bt_foreach_bond bonds (add_bonded_device_to_whitelist env) (c, s)).2.adv_work_pending
        = s.adv_work_pending := by
  induction bonds with
  | nil => intro c s; exact ⟨⟨[], by simp [bt_foreach_bond], by simp⟩, rfl, rfl⟩
  | cons b bs ih =>
    intro c s
    rw [foreach_cons]
    rcases lt_or_le c 0 with hc | hc
    · rw [add_bonded_neg env b c s hc]; exact ih c s
    · have hstep :
          (add_bonded_device_to_whitelist env b (c, s)).2.calls
            = s.calls ++ [Call.filter_accept_list_add b.addr] ∧
          (add_bonded_device_to_whitelist env b (c, s)).2.pairing_mode_enabled
            = s.pairing_mode_enabled ∧
          (add_bonded_device_to_whitelist env b (c, s)).2.adv_work_pending
            = s.adv_work_pending := by
        by_cases h0 : env s.calls.length = 0
        · obtain ⟨_, h2, _, h4, h5⟩ := add_bonded_ok env b c s hc h0
          exact ⟨h2, h4, h5⟩
        · obtain ⟨_, h2, _, h4, h5⟩ := add_bonded_fail env b c s hc h0
          exact ⟨h2, h4, h5⟩
      obtain ⟨h2, h4, h5⟩ := hstep
      generalize add_bonded_device_to_whitelist env b (c, s) = st at h2 h4 h5
      obtain ⟨c1, s1⟩ := st
      simp only at h2 h4 h5
      obtain ⟨⟨t, g2, gt⟩, g4, g5⟩ := ih c1 s1
      refine ⟨⟨Call.filter_accept_list_add b.addr :: t, ?_, ?_⟩, ?_, ?_⟩
      · rw [g2, h2]; simp
      · intro x hx
        rcases List.mem_cons.mp hx with rfl | hx
        · exact ⟨_, rfl⟩
        · exact gt x hx
      · rw [g4, h4]
      · rw [g5, h5]

/-! ## `configure_whitelist` -/

/-- The rebuild when the clear fails: the clear result comes back, nothing else
is called. -/
theorem configure_whitelist_clear_fail (env : Env) (bonds : List bt_bond_info) (s : State)
    (hfail : env s.calls.length ≠ 0) :
    (configure_whitelist env bonds s).1 = env s.calls.length ∧
    (configure_whitelist env bonds s).2.calls = s.calls ++ [Call.filter_accept_list_clear] ∧
    (configure_whitelist env bonds s).2.accept_list = s.accept_list ∧
    (configure_whitelist env bonds s).2.pairing_mode_enabled = s.pairing_mode_enabled ∧
    (configure_whitelist env bonds s).2.adv_work_pending = s.adv_work_pending := by
  simp [configure_whitelist, bt_le_filter_accept_list_clear, hfail]

/-- Unfolding of the rebuild when the clear succeeds. -/
theorem configure_whitelist_clear_ok (env : Env) (bonds : List bt_bond_info) (s : State)
    (hok : env s.calls.length = 0) :
    configure_whitelist env bonds s
      = bt_foreach_bond bonds (add_bonded_device_to_whitelist env)
          (0, { s.record Call.filter_accept_list_clear with accept_list := [] }) := by
  simp [configure_whitelist, bt_le_filter_accept_list_clear, hok]

/-- The rebuild when the clear and every add succeed. -/
theorem configure_whitelist_ok (env : Env) (bonds : List bt_bond_info) (s : State)
    (hclear : env s.calls.length = 0)
    (hadd : ∀ i, i < bonds.length → env (s.calls.length + 1 + i) = 0) :
    (configure_whitelist env bonds s).1 = bonds.length ∧
    (configure_whitelist env bonds s).2.calls
      = s.calls ++ Call.filter_accept_list_clear ::
          bonds.map (fun b => Call.filter_accept_list_add b.addr) ∧
    (configure_whitelist env bonds s).2.accept_list = bonds.map (fun b => b.addr) ∧
    (configure_whitelist env bonds s).2.pairing_mode_enabled = s.pairing_mode_enabled ∧
    (configure_whitelist env bonds s).2.adv_work_pending = s.adv_work_pending := by
  rw [configure_whitelist_clear_ok env bonds s hclear]
  obtain ⟨g1, g2, g3, g4, g5⟩ :=
    foreach_ok env bonds 0 { s.record Call.filter_accept_list_clear with accept_list := [] }
      le_rfl (by simpa using hadd)
  refine ⟨by simpa using g1, by simpa using g2, by simpa using g3, by simpa using g4,
    by simpa using g5⟩

/-- The rebuild when the clear succeeds and the add for the bond at index `k`
is the first to fail. -/
theorem configure_whitelist_fail (env : Env) (bonds : List bt_bond_info) (s : State)
    (k : Nat) (hk : k < bonds.length)
    (hclear : env s.calls.length = 0)
    (hbefore : ∀ i, i < k → env (s.calls.length + 1 + i) = 0)
    (hfail : env (s.calls.length + 1 + k) ≠ 0) :
    (configure_whitelist env bonds s).1 = - EIO ∧
    (configure_whitelist env bonds s).2.calls
      = s.calls ++ Call.filter_accept_list_clear ::
          (bonds.take (k + 1)).map (fun b => Call.filter_accept_list_add b.addr) ∧
    (configure_whitelist env bonds s).2.accept_list
      = (bonds.take k).map (fun b => b.addr) ∧
    (configure_whitelist env bonds s).2.pairing_mode_enabled = s.pairing_mode_enabled ∧
    (configure_whitelist env bonds s).2.adv_work_pending = s.adv_work_pending := by
  rw [configure_whitelist_clear_ok env bonds s hclear]
  obtain ⟨g1, g2, g3, g4, g5⟩ :=
    foreach_fail env bonds k 0
      { s.record Call.filter_accept_list_clear with accept_list := [] }
      le_rfl hk (by simpa using hbefore) (by simpa using hfail)
  refine ⟨g1, by simpa using g2, by simpa using g3, by simpa using g4, by simpa using g5⟩

/-- Whatever the outcomes, the rebuild appends the clear and then only
accept-list adds to the call record, and leaves the two flags alone. -/
theorem configure_whitelist_frame (env : Env) (bonds : List bt_bond_info) (s : State) :
    (∃ t, (configure_whitelist env bonds s).2.calls
            = s.calls ++ Call.filter_accept_list_clear :: t ∧
          ∀ x ∈ t, ∃ a, x = Call.filter_accept_list_add a) ∧
    (configure_whitelist env bonds s).2.pairing_mode_enabled = s.pairing_mode_enabled ∧
    (configure_whitelist env bonds s).2.adv_work_pending = s.adv_work_pending := by
  by_cases h0 : env s.calls.length = 0
  · rw [configure_whitelist_clear_ok env bonds s h0]
    obtain ⟨⟨t, g2, gt⟩, g4, g5⟩ :=
      foreach_frame env bonds 0
        { s.record Call.filter_accept_list_clear with accept_list := [] }
    exact ⟨⟨t, by simpa using g2, gt⟩, by simpa using g4, by simpa using g5⟩
  · obtain ⟨_, h2, _, h4, h5⟩ := configure_whitelist_clear_fail env bonds s h0
    exact ⟨⟨[], by simpa using h2, by simp⟩, h4, h5⟩


/-! ## Observations on traces -/

theorem callsSince_append (s s' : State) (t : List Call) (h : s'.calls = s.calls ++ t) :
    callsSince s s' = t := by
  simp [callsSince, h]

theorem startedParams_append (t u : List Call) :
    startedParams (t ++ u) = startedParams t ++ startedParams u := by
  simp [startedParams, List.filterMap_append]

theorem startedParams_adds (t : List Call)
    (h : ∀ x ∈ t, ∃ a, x = Call.filter_accept_list_add a) : startedParams t = [] := by
  induction t with
  | nil => rfl
  | cons x xs ih =>
    obtain ⟨a, rfl⟩ := h _ (List.mem_cons_self _ _)
    have := ih (fun y hy => h y (List.mem_cons_of_mem _ hy))
    simpa [startedParams] using this

theorem startedParams_map_add (bs : List bt_bond_info) :
    startedParams (bs.map (fun b => Call.filter_accept_list_add b.addr)) = [] := by
  apply startedParams_adds
  intro x hx
  obtain ⟨b, _, rfl⟩ := List.mem_map.mp hx
  exact ⟨_, rfl⟩

/-! ## `advertisement_handler` -/

/-- The pairing-mode branch of the handler, for every result of the clear and
of the start. -/
theorem handler_pairing (env : Env) (bonds : List bt_bond_info) (s : State)
    (hpair : s.pairing_mode_enabled = true) :
    (advertisement_handler env bonds s).calls
      = s.calls ++ [Call.filter_accept_list_clear,
                    Call.adv_start AdvParam.BT_LE_ADV_CONN_FAST_2] ∧
    (advertisement_handler env bonds s).accept_list
      = (if env s.calls.length = 0 then [] else s.accept_list) ∧
    (advertisement_handler env bonds s).pairing_mode_enabled = false ∧
    (advertisement_handler env bonds s).adv_work_pending = s.adv_work_pending := by
  by_cases h0 : env s.calls.length = 0 <;>
  by_cases h1 : env (s.calls.length + 1) = 0 <;>
  simp [advertisement_handler, bt_le_filter_accept_list_clear, bt_le_adv_start, hpair, h0, h1]

/-- The accept-list branch of the handler in terms of the rebuild it runs. -/
theorem handler_normal (env : Env) (bonds : List bt_bond_info) (s : State)
    (hpair : s.pairing_mode_enabled = false) :
    (advertisement_handler env bonds s).calls
      = (configure_whitelist env bonds s).2.calls ++
          (if (configure_whitelist env bonds s).1 < 0 then []
           else if (configure_whitelist env bonds s).1 = 0 then
             [Call.adv_start AdvParam.BT_LE_ADV_CONN_FAST_2]
           else [Call.adv_start AdvParam.BT_LE_ADV_CONN_ACCEPT_LIST]) ∧
    (advertisement_handler env bonds s).accept_list
      = (configure_whitelist env bonds s).2.accept_list ∧
    (advertisement_handler env bonds s).pairing_mode_enabled
      = (configure_whitelist env bonds s).2.pairing_mode_enabled ∧
    (advertisement_handler env bonds s).adv_work_pending
      = (configure_whitelist env bonds s).2.adv_work_pending := by
  simp only [advertisement_handler, hpair, Bool.false_eq_true, if_false]
  generalize configure_whitelist env bonds s = r
  obtain ⟨c, s1⟩ := r
  by_cases hneg : c < 0
  · simp [hneg]
  · by_cases hz : c = 0
    · by_cases hr : env s1.calls.length = 0 <;> simp [hz, bt_le_adv_start, hr]
    · by_cases hr : env s1.calls.length = 0 <;> simp [hneg, hz, bt_le_adv_start, hr]


/-! ## Facts that hold for every outcome of the stack calls -/

/-- A non-negative count coming out of the enumeration is the number of
entries the enumeration added to the radio accept list. -/
theorem foreach_count_entries (env : Env) (bonds : List bt_bond_info) :
    ∀ (c : Int) (s : State), 0 ≤ c →
      0 ≤ (bt_foreach_bond bonds (add_bonded_device_to_whitelist env) (c, s)).1 →
      ((bt_foreach_bond bonds (add_bonded_device_to_whitelist env) (c, s)).2.accept_list.length
          : Int)
        = s.accept_list.length
          + ((bt_foreach_bond bonds (add_bonded_device_to_whitelist env) (c, s)).1 - c) := by
  induction bonds with
  | nil => intro c s _ _; simp [bt_foreach_bond]
  | cons b bs ih =>
    intro c s hc
    rw [foreach_cons]
    by_cases h0 : env s.calls.length = 0
    · obtain ⟨h1, _, h3, _, _⟩ := add_bonded_ok env b c s hc h0
      generalize add_bonded_device_to_whitelist env b (c, s) = st at h1 h3
      obtain ⟨c1, s1⟩ := st
      simp only at h1 h3
      intro hr
      have := ih c1 s1 (by omega) hr
      rw [this, h3, h1]
      simp only [List.length_append, List.length_singleton]
      push_cast
      ring
    · obtain ⟨h1, _, _, _, _⟩ := add_bonded_fail env b c s hc h0
      generalize add_bonded_device_to_whitelist env b (c, s) = st at h1
      obtain ⟨c1, s1⟩ := st
      simp only at h1
      have hneg : c1 < 0 := by rw [h1]; decide
      rw [foreach_neg env bs c1 s1 hneg]
      intro hr
      simp only at hr
      omega

/-- When the clear succeeds, a non-negative result of the rebuild is the length
of the accept list the rebuild leaves behind. -/
theorem configure_whitelist_count_entries (env : Env) (bonds : List bt_bond_info)
    (s : State) (hclear : env s.calls.length = 0)
    (hres : 0 ≤ (configure_whitelist env bonds s).1) :
    ((configure_whitelist env bonds s).2.accept_list.length : Int)
      = (configure_whitelist env bonds s).1 := by
  rw [configure_whitelist_clear_ok env bonds s hclear] at hres ⊢
  have := foreach_count_entries env bonds 0
    { s.record Call.filter_accept_list_clear with accept_list := [] } le_rfl hres
  simpa using this

/-- The rebuild returns a negative value exactly when the clear returns a
negative value, or the clear succeeds and some add fails. -/
theorem configure_whitelist_neg_iff (env : Env) (bonds : List bt_bond_info) (s : State) :
    (configure_whitelist env bonds s).1 < 0 ↔
      (env s.calls.length < 0 ∨
        (env s.calls.length = 0 ∧
          ∃ k, k < bonds.length ∧ env (s.calls.length + 1 + k) ≠ 0)) := by
  by_cases h0 : env s.calls.length = 0
  · by_cases hsome : ∃ k, k < bonds.length ∧ env (s.calls.length + 1 + k) ≠ 0
    · have hk := Nat.find_spec hsome
      have hmin : ∀ i, i < Nat.find hsome → env (s.calls.length + 1 + i) = 0 := by
        intro i hi
        by_contra hne
        exact Nat.find_min hsome hi ⟨lt_trans hi hk.1, hne⟩
      obtain ⟨c1, _⟩ :=
        configure_whitelist_fail env bonds s (Nat.find hsome) hk.1 h0 hmin hk.2
      constructor
      · intro _; exact Or.inr ⟨h0, hsome⟩
      · intro _; rw [c1]; decide
    · have hall : ∀ i, i < bonds.length → env (s.calls.length + 1 + i) = 0 := by
        intro i hi
        by_contra hne
        exact hsome ⟨i, hi, hne⟩
      obtain ⟨c1, _⟩ := configure_whitelist_ok env bonds s h0 hall
      constructor
      · intro h; rw [c1] at h; omega
      · rintro (h | ⟨_, h⟩)
        · omega
        · exact absurd h hsome
  · obtain ⟨c1, _⟩ := configure_whitelist_clear_fail env bonds s h0
    rw [c1]
    constructor
    · intro h; exact Or.inl h
    · rintro (h | ⟨h, _⟩)
      · exact h
      · exact absurd h h0

/-- The start-advertising calls of one handler run, for every outcome. -/
theorem handler_startedParams (env : Env) (bonds : List bt_bond_info) (s : State) :
    startedParams (callsSince s (advertisement_handler env bonds s))
      = (if s.pairing_mode_enabled = true then [AdvParam.BT_LE_ADV_CONN_FAST_2]
         else if (configure_whitelist env bonds s).1 < 0 then []
         else if (configure_whitelist env bonds s).1 = 0 then
           [AdvParam.BT_LE_ADV_CONN_FAST_2]
         else [AdvParam.BT_LE_ADV_CONN_ACCEPT_LIST]) := by
  by_cases hpair : s.pairing_mode_enabled = true
  · rw [if_pos hpair, callsSince_append s _ _ (handler_pairing env bonds s hpair).1]; rfl
  · rw [if_neg hpair]
    have hpair' : s.pairing_mode_enabled = false := by simpa using hpair
    obtain ⟨h1, _, _, _⟩ := handler_normal env bonds s hpair'
    obtain ⟨⟨t, ht, hadds⟩, _, _⟩ := configure_whitelist_frame env bonds s
    rw [ht, List.append_assoc] at h1
    rw [callsSince_append s _ _ h1, startedParams_append, ← List.singleton_append,
      startedParams_append, startedParams_adds t hadds]
    by_cases hneg : (configure_whitelist env bonds s).1 < 0
    · simp [hneg, startedParams]
    · by_cases hz : (configure_whitelist env bonds s).1 = 0
      · simp [hz, startedParams]
      · simp [hneg, hz, startedParams]

/-- The flags after one handler run, for every outcome: the pairing flag is
off and the work item is not queued by the run. -/
theorem handler_flags (env : Env) (bonds : List bt_bond_info) (s : State) :
    (advertisement_handler env bonds s).pairing_mode_enabled = false ∧
    (advertisement_handler env bonds s).adv_work_pending = s.adv_work_pending := by
  by_cases hpair : s.pairing_mode_enabled = true
  · obtain ⟨_, _, h3, h4⟩ := handler_pairing env bonds s hpair
    exact ⟨h3, h4⟩
  · have hpair' : s.pairing_mode_enabled = false := by simpa using hpair
    obtain ⟨_, _, h3, h4⟩ := handler_normal env bonds s hpair'
    obtain ⟨_, g4, g5⟩ := configure_whitelist_frame env bonds s
    exact ⟨by rw [h3, g4, hpair'], by rw [h4, g5]⟩

/-! ## Advertising mode selection and accept-list rebuild -/

/-- C1: with pairing mode off, when the accept-list clear and every accept-list
add succeed, one run of `advertisement_handler` issues exactly one
start-advertising call: with `BT_LE_ADV_CONN_FAST_2` (Open) if the bond list is
empty, with `BT_LE_ADV_CONN_ACCEPT_LIST` (Restricted) if it is not.  The start
is the last call of the run, after the clear and one add per bond. -/
theorem advertisement_handler_selects_mode (env : Env) (bonds : List bt_bond_info)
    (s : State)
    (hpair : s.pairing_mode_enabled = false)
    (hclear : env s.calls.length = 0)
    (hadd : ∀ i, i < bonds.length → env (s.calls.length + 1 + i) = 0) :
    (bonds = [] →
      startedParams (callsSince s (advertisement_handler env bonds s))
        = [AdvParam.BT_LE_ADV_CONN_FAST_2] ∧
      AdvParam.BT_LE_ADV_CONN_FAST_2.mode = AdvertisingMode.Open) ∧
    (bonds ≠ [] →
      startedParams (callsSince s (advertisement_handler env bonds s))
        = [AdvParam.BT_LE_ADV_CONN_ACCEPT_LIST] ∧
      AdvParam.BT_LE_ADV_CONN_ACCEPT_LIST.mode = AdvertisingMode.Restricted) ∧
    callsSince s (advertisement_handler env bonds s)
      = Call.filter_accept_list_clear ::
          bonds.map (fun b => Call.filter_accept_list_add b.addr) ++
          [Call.adv_start (if bonds = [] then AdvParam.BT_LE_ADV_CONN_FAST_2
                           else AdvParam.BT_LE_ADV_CONN_ACCEPT_LIST)] := by
  obtain ⟨c1, c2, _, _, _⟩ := configure_whitelist_ok env bonds s hclear hadd
  obtain ⟨h1, _, _, _⟩ := handler_normal env bonds s hpair
  rw [c1, c2] at h1
  have hnn : ¬ ((bonds.length : Int) < 0) := by omega
  have hz : ((bonds.length : Int) = 0) ↔ bonds = [] := by
    rw [Int.natCast_eq_zero]; exact List.length_eq_zero
  have htrace : callsSince s (advertisement_handler env bonds s)
      = Call.filter_accept_list_clear ::
          bonds.map (fun b => Call.filter_accept_list_add b.addr) ++
          [Call.adv_start (if bonds = [] then AdvParam.BT_LE_ADV_CONN_FAST_2
                           else AdvParam.BT_LE_ADV_CONN_ACCEPT_LIST)] := by
    apply callsSince_append
    rw [h1]
    by_cases hb : bonds = []
    · simp [hb]
    · have hz' : ¬ ((bonds.length : Int) = 0) := fun h => hb (hz.mp h)
      simp [hnn, hz', hb]
  refine ⟨?_, ?_, htrace⟩
  · intro hb
    refine ⟨?_, rfl⟩
    rw [htrace, hb]; rfl
  · intro hb
    refine ⟨?_, rfl⟩
    rw [htrace, if_neg hb, List.cons_append, ← List.singleton_append, startedParams_append,
      startedParams_append, startedParams_map_add]
    rfl

/-- C1 instance: three bonds at boot, every call succeeds. -/
theorem advertisement_handler_selects_mode_witness :
    State.initial.pairing_mode_enabled = false ∧
    envAllOk State.initial.calls.length = 0 ∧
    (∀ i, i < threeBonds.length → envAllOk (State.initial.calls.length + 1 + i) = 0) ∧
    startedParams (callsSince State.initial
        (advertisement_handler envAllOk threeBonds State.initial))
      = [AdvParam.BT_LE_ADV_CONN_ACCEPT_LIST] :=
  ⟨rfl, rfl, fun _ _ => rfl,
   ((advertisement_handler_selects_mode envAllOk threeBonds State.initial rfl rfl
      (fun _ _ => rfl)).2.1 (by decide)).1⟩

/-- C2: if the accept-list clear and every accept-list add succeed,
`configure_whitelist` returns the number of bonds and leaves the radio accept
list holding exactly the bond addresses in enumeration order; with no bond it
returns 0. -/
theorem configure_whitelist_returns_count (env : Env) (bonds : List bt_bond_info)
    (s : State)
    (hclear : env s.calls.length = 0)
    (hadd : ∀ i, i < bonds.length → env (s.calls.length + 1 + i) = 0) :
    (configure_whitelist env bonds s).1 = bonds.length ∧
    (configure_whitelist env bonds s).2.accept_list = bonds.map (fun b => b.addr) ∧
    (bonds = [] → (configure_whitelist env bonds s).1 = 0) := by
  obtain ⟨c1, _, c3, _, _⟩ := configure_whitelist_ok env bonds s hclear hadd
  exact ⟨c1, c3, fun hb => by rw [c1, hb]; rfl⟩

/-- C2 instance: three bonds, every call succeeds, the count returned is 3. -/
theorem configure_whitelist_returns_count_witness :
    envAllOk State.initial.calls.length = 0 ∧
    (∀ i, i < threeBonds.length → envAllOk (State.initial.calls.length + 1 + i) = 0) ∧
    (configure_whitelist envAllOk threeBonds State.initial).1 = 3 ∧
    (configure_whitelist envAllOk threeBonds State.initial).2.accept_list
      = [(bond 1).addr, (bond 2).addr, (bond 3).addr] :=
  ⟨rfl, fun _ _ => rfl,
   (configure_whitelist_returns_count envAllOk threeBonds State.initial rfl
      (fun _ _ => rfl)).1,
   (configure_whitelist_returns_count envAllOk threeBonds State.initial rfl
      (fun _ _ => rfl)).2.1⟩


/-- C3 as stated fails: three bonds, pairing mode off, the add for the 2nd bond
fails.  The run ends after that add, no start-advertising call is made (neither
Open nor Restricted), and the accept list keeps the first bond. -/
theorem rebuild_error_open_fallback_counterexample :
    State.initial.pairing_mode_enabled = false ∧
    envFailAt 2 (-22) 2 ≠ 0 ∧
    callsSince State.initial
        (advertisement_handler (envFailAt 2 (-22)) threeBonds State.initial)
      = [Call.filter_accept_list_clear,
         Call.filter_accept_list_add (bond 1).addr,
         Call.filter_accept_list_add (bond 2).addr] ∧
    ¬ (AdvParam.BT_LE_ADV_CONN_FAST_2 ∈
        startedParams (callsSince State.initial
          (advertisement_handler (envFailAt 2 (-22)) threeBonds State.initial))) ∧
    (advertisement_handler (envFailAt 2 (-22)) threeBonds State.initial).accept_list
      = [(bond 1).addr] := by
  decide

/-- C3 amended: with pairing mode off and the clear succeeding, if some
accept-list add fails then one run of `advertisement_handler` makes no
start-advertising call at all: its calls are the clear and the adds up to and
including the first one that fails, the accept list keeps the bonds added
before it, and the work item is not submitted again. -/
theorem rebuild_error_no_start (env : Env) (bonds : List bt_bond_info) (s : State)
    (hpair : s.pairing_mode_enabled = false)
    (hclear : env s.calls.length = 0)
    (hsome : ∃ k, k < bonds.length ∧ env (s.calls.length + 1 + k) ≠ 0) :
    startedParams (callsSince s (advertisement_handler env bonds s)) = [] ∧
    (∃ k, k < bonds.length ∧
      callsSince s (advertisement_handler env bonds s)
        = Call.filter_accept_list_clear ::
            (bonds.take (k + 1)).map (fun b => Call.filter_accept_list_add b.addr) ∧
      (advertisement_handler env bonds s).accept_list
        = (bonds.take k).map (fun b => b.addr)) ∧
    (advertisement_handler env bonds s).adv_work_pending = s.adv_work_pending := by
  have hk := Nat.find_spec hsome
  have hmin : ∀ i, i < Nat.find hsome → env (s.calls.length + 1 + i) = 0 := by
    intro i hi
    by_contra hne
    exact Nat.find_min hsome hi ⟨lt_trans hi hk.1, hne⟩
  obtain ⟨c1, c2, c3, _, c5⟩ :=
    configure_whitelist_fail env bonds s (Nat.find hsome) hk.1 hclear hmin hk.2
  obtain ⟨h1, h2, _, h4⟩ := handler_normal env bonds s hpair
  have hneg : (configure_whitelist env bonds s).1 < 0 := by rw [c1]; decide
  rw [if_pos hneg, List.append_nil, c2] at h1
  have htrace := callsSince_append s _ _ h1
  refine ⟨?_, ⟨Nat.find hsome, hk.1, htrace, by rw [h2, c3]⟩, by rw [h4, c5]⟩
  rw [htrace, ← List.singleton_append, startedParams_append, startedParams_map_add]
  rfl

/-- C3 amended, instance: the 2nd of three adds fails at boot. -/
theorem rebuild_error_no_start_witness :
    State.initial.pairing_mode_enabled = false ∧
    envFailAt 2 (-22) State.initial.calls.length = 0 ∧
    (∃ k, k < threeBonds.length ∧
      envFailAt 2 (-22) (State.initial.calls.length + 1 + k) ≠ 0) ∧
    startedParams (callsSince State.initial
        (advertisement_handler (envFailAt 2 (-22)) threeBonds State.initial)) = [] :=
  ⟨rfl, rfl, ⟨1, by decide, by decide⟩,
   (rebuild_error_no_start (envFailAt 2 (-22)) threeBonds State.initial rfl rfl
      ⟨1, by decide, by decide⟩).1⟩

/-- C4: when the rebuild reaches the adds (the clear succeeded), the adds for
the bonds before index `k` succeed and the add for the bond at index `k` fails,
`configure_whitelist` returns `-EIO`, a negative value, whatever `k` is and
whatever bonds follow. -/
theorem configure_whitelist_reports_add_failure (env : Env) (bonds : List bt_bond_info)
    (s : State) (k : Nat) (hk : k < bonds.length)
    (hclear : env s.calls.length = 0)
    (hbefore : ∀ i, i < k → env (s.calls.length + 1 + i) = 0)
    (hfail : env (s.calls.length + 1 + k) ≠ 0) :
    (configure_whitelist env bonds s).1 = - EIO ∧
    (configure_whitelist env bonds s).1 < 0 := by
  obtain ⟨c1, _⟩ := configure_whitelist_fail env bonds s k hk hclear hbefore hfail
  exact ⟨c1, by rw [c1]; decide⟩

/-- C4 instance: the add for the 2nd of three bonds fails. -/
theorem configure_whitelist_reports_add_failure_witness :
    1 < threeBonds.length ∧
    envFailAt 2 (-22) State.initial.calls.length = 0 ∧
    (∀ i, i < 1 → envFailAt 2 (-22) (State.initial.calls.length + 1 + i) = 0) ∧
    envFailAt 2 (-22) (State.initial.calls.length + 1 + 1) ≠ 0 ∧
    (configure_whitelist (envFailAt 2 (-22)) threeBonds State.initial).1 = -5 :=
  ⟨by decide, rfl, by decide, by decide,
   (configure_whitelist_reports_add_failure (envFailAt 2 (-22)) threeBonds State.initial 1
      (by decide) rfl (by decide) (by decide)).1⟩

/-! ## Pairing mode -/

/-- C5: whenever `pairing_mode_enabled` is true, one run of
`advertisement_handler` issues exactly the calls accept-list clear, then start
advertising with `BT_LE_ADV_CONN_FAST_2` (Open), for every bond list and every
result of the clear and of the start; no accept-list add is issued. -/
theorem pairing_handler_steps (env : Env) (bonds : List bt_bond_info) (s : State)
    (hpair : s.pairing_mode_enabled = true) :
    callsSince s (advertisement_handler env bonds s)
      = [Call.filter_accept_list_clear, Call.adv_start AdvParam.BT_LE_ADV_CONN_FAST_2] ∧
    AdvParam.BT_LE_ADV_CONN_FAST_2.mode = AdvertisingMode.Open ∧
    ∀ a, Call.filter_accept_list_add a ∉ callsSince s (advertisement_handler env bonds s) := by
  have htrace := callsSince_append s _ _ (handler_pairing env bonds s hpair).1
  refine ⟨htrace, rfl, ?_⟩
  intro a
  rw [htrace]
  simp

/-- C5 instance: pairing requested with three bonds stored and the clear
failing. -/
theorem pairing_handler_steps_witness :
    pairingAfterRestricted.pairing_mode_enabled = true ∧
    callsSince pairingAfterRestricted
        (advertisement_handler (envFailAt 4 (-11)) threeBonds pairingAfterRestricted)
      = [Call.filter_accept_list_clear, Call.adv_start AdvParam.BT_LE_ADV_CONN_FAST_2] :=
  ⟨by decide,
   (pairing_handler_steps (envFailAt 4 (-11)) threeBonds pairingAfterRestricted
      (by decide)).1⟩

/-- C6 as stated fails: the program is advertising Restricted on a one-entry
accept list, the pairing button is pressed, and in the handler run that follows
the accept-list clear fails.  Advertising is started Open, but the accept list
still holds the old entry. -/
theorem pairing_post_state_counterexample :
    pairingAfterRestricted.pairing_mode_enabled = true ∧
    pairingAfterRestricted.accept_list = [(bond 1).addr] ∧
    startedParams (callsSince pairingAfterRestricted
        (advertisement_handler (envFailAt 4 (-11)) threeBonds pairingAfterRestricted))
      = [AdvParam.BT_LE_ADV_CONN_FAST_2] ∧
    (advertisement_handler (envFailAt 4 (-11)) threeBonds pairingAfterRestricted).accept_list
      ≠ [] := by
  decide

/-- C6 amended: after a run of `advertisement_handler` with
`pairing_mode_enabled` true, for every prior accept-list content and every bond
list, the one advertising start made is Open; the radio accept list is empty
whenever the accept-list clear succeeded. -/
theorem pairing_post_state (env : Env) (bonds : List bt_bond_info) (s : State)
    (hpair : s.pairing_mode_enabled = true) :
    startedParams (callsSince s (advertisement_handler env bonds s))
      = [AdvParam.BT_LE_ADV_CONN_FAST_2] ∧
    AdvParam.BT_LE_ADV_CONN_FAST_2.mode = AdvertisingMode.Open ∧
    (env s.calls.length = 0 → (advertisement_handler env bonds s).accept_list = []) := by
  obtain ⟨h1, h2, _, _⟩ := handler_pairing env bonds s hpair
  refine ⟨?_, rfl, ?_⟩
  · rw [callsSince_append s _ _ h1]; rfl
  · intro h0
    rw [h2, if_pos h0]

/-- C6 amended, instance: the same pairing request with every call succeeding
leaves the accept list empty. -/
theorem pairing_post_state_witness :
    pairingAfterRestricted.pairing_mode_enabled = true ∧
    pairingAfterRestricted.accept_list = [(bond 1).addr] ∧
    (advertisement_handler envAllOk threeBonds pairingAfterRestricted).accept_list = [] :=
  ⟨by decide, by decide,
   (pairing_post_state envAllOk threeBonds pairingAfterRestricted (by decide)).2.2 rfl⟩

/-! ## Mode and accept list -/

/-- C7 fails on the code.  At boot the accept list is empty; the accept-list
clear of the first handler run returns the positive error code 12 (the stack
reports controller errors as positive values).  `configure_whitelist` hands 12
back, `advertisement_handler` reads it as a count of 12 bonded devices and
starts advertising with `BT_LE_ADV_CONN_ACCEPT_LIST` (Restricted) while the
accept list is empty: no add was issued. -/
theorem restricted_start_with_empty_accept_list :
    (start_advertising State.initial).accept_list = [] ∧
    (configure_whitelist (envFailAt 0 12) threeBonds
        (start_advertising State.initial).dequeued).1 = 12 ∧
    callsSince State.initial
        (work_queue_drain (envFailAt 0 12) threeBonds (start_advertising State.initial))
      = [Call.filter_accept_list_clear,
         Call.adv_start AdvParam.BT_LE_ADV_CONN_ACCEPT_LIST] ∧
    AdvParam.BT_LE_ADV_CONN_ACCEPT_LIST.mode = AdvertisingMode.Restricted ∧
    (work_queue_drain (envFailAt 0 12) threeBonds
        (start_advertising State.initial)).accept_list = [] := by
  decide

/-- How far a Restricted start can be from a filled accept list: a handler run that starts Restricted
either leaves a non-empty accept list or had its accept-list clear return a
positive value. -/
theorem restricted_start_entries_or_positive_clear (env : Env) (bonds : List bt_bond_info)
    (s : State)
    (hres : AdvParam.BT_LE_ADV_CONN_ACCEPT_LIST ∈
      startedParams (callsSince s (advertisement_handler env bonds s))) :
    (advertisement_handler env bonds s).accept_list ≠ [] ∨ 0 < env s.calls.length := by
  rw [handler_startedParams] at hres
  by_cases hpair : s.pairing_mode_enabled = true
  · rw [if_pos hpair] at hres; simp at hres
  · rw [if_neg hpair] at hres
    have hpair' : s.pairing_mode_enabled = false := by simpa using hpair
    by_cases hneg : (configure_whitelist env bonds s).1 < 0
    · rw [if_pos hneg] at hres; simp at hres
    · rw [if_neg hneg] at hres
      by_cases hz : (configure_whitelist env bonds s).1 = 0
      · rw [if_pos hz] at hres; simp at hres
      · have hpos : 0 < (configure_whitelist env bonds s).1 := by omega
        by_cases h0 : env s.calls.length = 0
        · left
          have hlen := configure_whitelist_count_entries env bonds s h0 (by omega)
          rw [(handler_normal env bonds s hpair').2.1]
          intro hnil
          rw [hnil] at hlen
          simp at hlen
          omega
        · right
          rw [(configure_whitelist_clear_fail env bonds s h0).1] at hpos
          exact hpos


/-! ## The deferred executor -/

/-- What the `recycled` callback changes: it queues the work item and logs. -/
theorem on_recycled_fields (s : State) :
    (on_recycled s).calls = s.calls ∧
    (on_recycled s).accept_list = s.accept_list ∧
    (on_recycled s).pairing_mode_enabled = s.pairing_mode_enabled ∧
    (on_recycled s).adv_work_pending = true :=
  ⟨rfl, rfl, rfl, rfl⟩

/-- What a pairing-request button edge changes: the pairing flag is set and
stop-advertising is called; the work item is not submitted. -/
theorem pairing_edge_fields (env : Env) (s : State) :
    (handle_button_event env 0 PAIRING_MODE_BUTTON_MASK s).calls
      = s.calls ++ [Call.adv_stop] ∧
    (handle_button_event env 0 PAIRING_MODE_BUTTON_MASK s).accept_list = s.accept_list ∧
    (handle_button_event env 0 PAIRING_MODE_BUTTON_MASK s).pairing_mode_enabled = true ∧
    (handle_button_event env 0 PAIRING_MODE_BUTTON_MASK s).adv_work_pending
      = s.adv_work_pending := by
  have e1 : PAIRING_MODE_BUTTON_MASK &&& BOND_ERASE_BUTTON_MASK = 0 := by decide
  have e2 : PAIRING_MODE_BUTTON_MASK &&& PAIRING_MODE_BUTTON_MASK ≠ 0 := by decide
  have e3 : 0 &&& PAIRING_MODE_BUTTON_MASK = 0 := by decide
  have e4 : PAIRING_MODE_BUTTON_MASK ≠ 0 := by decide
  by_cases h : env s.calls.length = 0 <;>
  simp [handle_button_event, e1, e2, e3, e4, bt_le_adv_stop, h]

/-- The two flags after a sequence of intents: the pairing flag is set by any
pairing request, the work item is queued by any normal start. -/
theorem record_intents_flags (env : Env) (intents : List Intent) :
    ∀ s : State,
      (record_intents env intents s).pairing_mode_enabled
        = (s.pairing_mode_enabled || decide (Intent.StartPairingAdvertising ∈ intents)) ∧
      (record_intents env intents s).adv_work_pending
        = (s.adv_work_pending || decide (Intent.StartNormalAdvertising ∈ intents)) := by
  induction intents with
  | nil => intro s; simp [record_intents]
  | cons i is ih =>
    intro s
    have hstep : record_intents env (i :: is) s = record_intents env is (record_intent env i s) :=
      rfl
    rw [hstep]
    obtain ⟨g1, g2⟩ := ih (record_intent env i s)
    cases i with
    | StartPairingAdvertising =>
      obtain ⟨_, _, p3, p4⟩ := pairing_edge_fields env s
      have p3' : (record_intent env Intent.StartPairingAdvertising s).pairing_mode_enabled
          = true := p3
      have p4' : (record_intent env Intent.StartPairingAdvertising s).adv_work_pending
          = s.adv_work_pending := p4
      rw [g1, g2, p3', p4']
      simp
    | StartNormalAdvertising =>
      obtain ⟨_, _, p3, p4⟩ := on_recycled_fields s
      have p3' : (record_intent env Intent.StartNormalAdvertising s).pairing_mode_enabled
          = s.pairing_mode_enabled := p3
      have p4' : (record_intent env Intent.StartNormalAdvertising s).adv_work_pending
          = true := p4
      rw [g1, g2, p3', p4']
      simp

/-- C8 as stated fails: the `recycled` callback arrives at boot state, the work
item is drained, and the accept-list clear fails with `-EAGAIN` (-11).  The
handler run ends without any start-advertising call. -/
theorem one_start_per_recycle_counterexample :
    (on_recycled State.initial).adv_work_pending = true ∧
    callsSince State.initial
        (work_queue_drain (envFailAt 0 (-11)) threeBonds (on_recycled State.initial))
      = [Call.filter_accept_list_clear] ∧
    (startedParams (callsSince State.initial
        (work_queue_drain (envFailAt 0 (-11)) threeBonds (on_recycled State.initial)))).length
      = 0 := by
  decide

/-- C8 amended: for every controller state, bond list and capability outcome,
the `recycled` callback makes no stack call and queues the work item, and the
drain that follows leaves the item unqueued and makes at most one
start-advertising call: exactly one when pairing mode is on or the clear and
every add of the rebuild succeed, and none when pairing mode is off and the
rebuild reports a negative error (the clear returns a negative value, or the
clear succeeds and some add fails). -/
theorem recycle_then_drain_starts (env : Env) (bonds : List bt_bond_info) (s : State) :
    callsSince s (on_recycled s) = [] ∧
    (on_recycled s).adv_work_pending = true ∧
    (work_queue_drain env bonds (on_recycled s)).adv_work_pending = false ∧
    (startedParams (callsSince s (work_queue_drain env bonds (on_recycled s)))).length ≤ 1 ∧
    ((s.pairing_mode_enabled = true ∨
        (env s.calls.length = 0 ∧
          ∀ k, k < bonds.length → env (s.calls.length + 1 + k) = 0)) →
      (startedParams (callsSince s (work_queue_drain env bonds (on_recycled s)))).length
        = 1) ∧
    ((s.pairing_mode_enabled = false ∧
        (env s.calls.length < 0 ∨
          (env s.calls.length = 0 ∧
            ∃ k, k < bonds.length ∧ env (s.calls.length + 1 + k) ≠ 0))) →
      (startedParams (callsSince s (work_queue_drain env bonds (on_recycled s)))).length
        = 0) := by
  have hdrain : work_queue_drain env bonds (on_recycled s)
      = advertisement_handler env bonds (on_recycled s).dequeued := by
    simp [work_queue_drain, (on_recycled_fields s).2.2.2]
  have hsince : callsSince s (work_queue_drain env bonds (on_recycled s))
      = callsSince (on_recycled s).dequeued
          (advertisement_handler env bonds (on_recycled s).dequeued) := by
    rw [hdrain]; rfl
  have hparams := handler_startedParams env bonds (on_recycled s).dequeued
  have hneg := configure_whitelist_neg_iff env bonds (on_recycled s).dequeued
  have hp : (on_recycled s).dequeued.pairing_mode_enabled = s.pairing_mode_enabled := rfl
  have hc : (on_recycled s).dequeued.calls = s.calls := rfl
  rw [hp] at hparams
  rw [hc] at hneg
  refine ⟨by simp [callsSince, (on_recycled_fields s).1], rfl, ?_, ?_, ?_, ?_⟩
  · rw [hdrain, (handler_flags env bonds _).2]; rfl
  · rw [hsince, hparams]
    split_ifs <;> simp
  · intro h
    rw [hsince, hparams]
    rcases h with hpair | ⟨h0, hall⟩
    · simp [hpair]
    · have hnn : ¬ (configure_whitelist env bonds (on_recycled s).dequeued).1 < 0 := by
        rw [hneg]
        rintro (hlt | ⟨_, k, hk, hne⟩)
        · omega
        · exact hne (hall k hk)
      split_ifs <;> simp
  · rintro ⟨hpair, hbad⟩
    rw [hsince, hparams]
    simp [hpair, hneg.mpr hbad]

/-- C8 amended, instance: the program advertises Restricted with three bonds,
the link is recycled and every call succeeds; the drain makes one start. -/
theorem recycle_then_drain_starts_witness :
    (restrictedAfterBoot.pairing_mode_enabled = true ∨
      (envAllOk restrictedAfterBoot.calls.length = 0 ∧
        ∀ k, k < threeBonds.length → envAllOk (restrictedAfterBoot.calls.length + 1 + k) = 0)) ∧
    (startedParams (callsSince restrictedAfterBoot
        (work_queue_drain envAllOk threeBonds (on_recycled restrictedAfterBoot)))).length
      = 1 :=
  ⟨Or.inr ⟨rfl, fun _ _ => rfl⟩,
   (recycle_then_drain_starts envAllOk threeBonds restrictedAfterBoot).2.2.2.2.1
      (Or.inr ⟨rfl, fun _ _ => rfl⟩)⟩

/-- C9 as stated fails.  The program advertises Restricted with three bonds
stored.  A pairing request and then a normal start are recorded, so the most
recent intent is the normal one; the drain nevertheless takes the pairing
branch (clear, start Open), not the accept-list selection that a run with the
pairing flag off performs on the same state.  And when the pairing request is
the only intent recorded, nothing is queued and the drain runs no handler. -/
theorem coalescing_counterexample :
    [Intent.StartPairingAdvertising, Intent.StartNormalAdvertising].getLast?
      = some Intent.StartNormalAdvertising ∧
    callsSince
        (record_intents envAllOk
          [Intent.StartPairingAdvertising, Intent.StartNormalAdvertising] restrictedAfterBoot)
        (work_queue_drain envAllOk threeBonds
          (record_intents envAllOk
            [Intent.StartPairingAdvertising, Intent.StartNormalAdvertising]
            restrictedAfterBoot))
      = [Call.filter_accept_list_clear, Call.adv_start AdvParam.BT_LE_ADV_CONN_FAST_2] ∧
    callsSince
        (record_intents envAllOk
          [Intent.StartPairingAdvertising, Intent.StartNormalAdvertising] restrictedAfterBoot)
        (advertisement_handler envAllOk threeBonds
          { (record_intents envAllOk
              [Intent.StartPairingAdvertising, Intent.StartNormalAdvertising]
              restrictedAfterBoot).dequeued with pairing_mode_enabled := false })
      = [Call.filter_accept_list_clear,
         Call.filter_accept_list_add (bond 1).addr,
         Call.filter_accept_list_add (bond 2).addr,
         Call.filter_accept_list_add (bond 3).addr,
         Call.adv_start AdvParam.BT_LE_ADV_CONN_ACCEPT_LIST] ∧
    work_queue_drain envAllOk threeBonds
        (record_intents envAllOk [Intent.StartPairingAdvertising] restrictedAfterBoot)
      = record_intents envAllOk [Intent.StartPairingAdvertising] restrictedAfterBoot :=
  ⟨by decide, by decide, by decide, rfl⟩

/-- C9 amended: for every sequence of intents recorded before a drain, the
drain runs the handler once when the work item is queued (a normal start from
recycled/boot is among the intents, or the item was queued before) and runs
nothing otherwise, a pairing request alone queueing nothing.  The run takes
the pairing branch (clear, start Open) when the pairing flag is set (a pairing
request is among the intents, in any position, or the flag was set before) and
the accept-list selection (the rebuild of `configure_whitelist`, then at most
one start) otherwise.  After the drain the work item is not queued. -/
theorem drain_after_intents (env : Env) (intents : List Intent) (bonds : List bt_bond_info)
    (s : State) :
    (record_intents env intents s).pairing_mode_enabled
      = (s.pairing_mode_enabled || decide (Intent.StartPairingAdvertising ∈ intents)) ∧
    (record_intents env intents s).adv_work_pending
      = (s.adv_work_pending || decide (Intent.StartNormalAdvertising ∈ intents)) ∧
    ((record_intents env intents s).adv_work_pending = false →
      work_queue_drain env bonds (record_intents env intents s)
        = record_intents env intents s) ∧
    ((record_intents env intents s).adv_work_pending = true →
      work_queue_drain env bonds (record_intents env intents s)
        = advertisement_handler env bonds (record_intents env intents s).dequeued ∧
      (work_queue_drain env bonds (record_intents env intents s)).adv_work_pending = false ∧
      ((record_intents env intents s).pairing_mode_enabled = true →
        callsSince (record_intents env intents s)
            (work_queue_drain env bonds (record_intents env intents s))
          = [Call.filter_accept_list_clear,
             Call.adv_start AdvParam.BT_LE_ADV_CONN_FAST_2]) ∧
      ((record_intents env intents s).pairing_mode_enabled = false →
        ∃ t, callsSince (record_intents env intents s)
                (work_queue_drain env bonds (record_intents env intents s))
              = callsSince (record_intents env intents s)
                  (configure_whitelist env bonds (record_intents env intents s).dequeued).2
                ++ t ∧
             t.length ≤ 1 ∧ ∀ c ∈ t, ∃ p, c = Call.adv_start p)) := by
  obtain ⟨f1, f2⟩ := record_intents_flags env intents s
  refine ⟨f1, f2, ?_, ?_⟩
  · intro hq
    simp [work_queue_drain, hq]
  · intro hq
    generalize record_intents env intents s = r at hq ⊢
    have hdrain : work_queue_drain env bonds r = advertisement_handler env bonds r.dequeued := by
      simp [work_queue_drain, hq]
    refine ⟨hdrain, ?_, ?_, ?_⟩
    · rw [hdrain, (handler_flags env bonds _).2]; rfl
    · intro hp
      rw [hdrain]
      exact callsSince_append r.dequeued _ _ (handler_pairing env bonds r.dequeued hp).1
    · intro hp
      rw [hdrain]
      obtain ⟨h1, _, _, _⟩ := handler_normal env bonds r.dequeued hp
      obtain ⟨⟨t, ht, _⟩, _, _⟩ := configure_whitelist_frame env bonds r.dequeued
      have hcw : callsSince r (configure_whitelist env bonds r.dequeued).2
          = Call.filter_accept_list_clear :: t := callsSince_append r.dequeued _ _ ht
      rw [hcw]
      refine ⟨_, callsSince_append r.dequeued _ _ (by rw [h1, ht, List.append_assoc]),
        ?_, ?_⟩
      · split_ifs <;> simp
      · intro c hc
        split_ifs at hc <;> simp at hc <;> exact ⟨_, hc⟩

/-- C9 amended, instance: a pairing request followed by a normal start, then
the drain: one handler run, on the pairing branch. -/
theorem drain_after_intents_witness :
    (record_intents envAllOk
        [Intent.StartPairingAdvertising, Intent.StartNormalAdvertising]
        restrictedAfterBoot).adv_work_pending = true ∧
    (record_intents envAllOk
        [Intent.StartPairingAdvertising, Intent.StartNormalAdvertising]
        restrictedAfterBoot).pairing_mode_enabled = true ∧
    callsSince
        (record_intents envAllOk
          [Intent.StartPairingAdvertising, Intent.StartNormalAdvertising] restrictedAfterBoot)
        (work_queue_drain envAllOk threeBonds
          (record_intents envAllOk
            [Intent.StartPairingAdvertising, Intent.StartNormalAdvertising]
            restrictedAfterBoot))
      = [Call.filter_accept_list_clear, Call.adv_start AdvParam.BT_LE_ADV_CONN_FAST_2] :=
  ⟨by decide, by decide,
   ((drain_after_intents envAllOk
      [Intent.StartPairingAdvertising, Intent.StartNormalAdvertising] threeBonds
      restrictedAfterBoot).2.2.2 (by decide)).2.2.1 (by decide)⟩

/-! ## Notification callbacks -/

/-- C10: for every argument, `on_connected`, `on_disconnected`,
`on_security_changed` and `on_recycled` make no stack call (no start, stop,
accept-list clear or add) and leave the accept list and the pairing flag as
they were; the first three also leave the work item as it was, and
`on_recycled` submits it.  Apart from log lines nothing else changes. -/
theorem callbacks_make_no_radio_call (conn err reason level sec_err : Nat) (s : State) :
    (callsSince s (on_connected conn err s) = [] ∧
      on_connected conn err s = { s with log := (on_connected conn err s).log }) ∧
    (callsSince s (on_disconnected conn reason s) = [] ∧
      on_disconnected conn reason s
        = { s with log := (on_disconnected conn reason s).log }) ∧
    (callsSince s (on_security_changed conn level sec_err s) = [] ∧
      on_security_changed conn level sec_err s
        = { s with log := (on_security_changed conn level sec_err s).log }) ∧
    (callsSince s (on_recycled s) = [] ∧
      on_recycled s = { s with adv_work_pending := true, log := (on_recycled s).log }) := by
  refine ⟨⟨?_, ?_⟩, ⟨?_, ?_⟩, ⟨?_, ?_⟩, ⟨?_, ?_⟩⟩
  · by_cases h : err = 0 <;> simp [callsSince, on_connected, h]
  · by_cases h : err = 0 <;> simp [on_connected, h, State.logf]
  · simp [callsSince, on_disconnected]
  · simp [on_disconnected, State.logf]
  · by_cases h : sec_err = 0 <;> simp [callsSince, on_security_changed, h]
  · by_cases h : sec_err = 0 <;> simp [on_security_changed, h, State.logf]
  · simp [callsSince, on_recycled, start_advertising, k_work_submit]
  · simp [on_recycled, start_advertising, k_work_submit, State.logf]

/-! ## Notification callbacks: fields -/

/-- The three logging callbacks leave every field but the log as it was. -/
theorem callbacks_fields (conn err reason level sec_err : Nat) (s : State) :
    ((on_connected conn err s).calls = s.calls ∧
      (on_connected conn err s).accept_list = s.accept_list ∧
      (on_connected conn err s).pairing_mode_enabled = s.pairing_mode_enabled ∧
      (on_connected conn err s).adv_work_pending = s.adv_work_pending) ∧
    ((on_disconnected conn reason s).calls = s.calls ∧
      (on_disconnected conn reason s).accept_list = s.accept_list ∧
      (on_disconnected conn reason s).pairing_mode_enabled = s.pairing_mode_enabled ∧
      (on_disconnected conn reason s).adv_work_pending = s.adv_work_pending) ∧
    ((on_security_changed conn level sec_err s).calls = s.calls ∧
      (on_security_changed conn level sec_err s).accept_list = s.accept_list ∧
      (on_security_changed conn level sec_err s).pairing_mode_enabled
        = s.pairing_mode_enabled ∧
      (on_security_changed conn level sec_err s).adv_work_pending = s.adv_work_pending) := by
  refine ⟨?_, ?_, ?_⟩
  · by_cases h : err = 0 <;> simp [on_connected, h]
  · simp [on_disconnected]
  · by_cases h : sec_err = 0 <;> simp [on_security_changed, h]

/-! ## Button events -/

/-- What a button event does, for every pair of masks and every outcome: the
erase branch contributes one `bt_unpair` call, the pairing branch one
stop-advertising call and the pairing flag; nothing else changes. -/
theorem handle_button_event_fields (env : Env) (cs cm : Nat) (s : State) :
    (handle_button_event env cs cm s).calls
      = s.calls ++ ((if bondEraseEdge cs cm = true then [Call.unpair_all] else []) ++
          (if pairingEdge cs cm = true then [Call.adv_stop] else [])) ∧
    (handle_button_event env cs cm s).accept_list = s.accept_list ∧
    (handle_button_event env cs cm s).pairing_mode_enabled
      = (s.pairing_mode_enabled || pairingEdge cs cm) ∧
    (handle_button_event env cs cm s).adv_work_pending = s.adv_work_pending := by
  by_cases e1 : cm &&& BOND_ERASE_BUTTON_MASK = 0 <;>
  by_cases e2 : cs &&& BOND_ERASE_BUTTON_MASK = 0 <;>
  by_cases p1 : cm &&& PAIRING_MODE_BUTTON_MASK = 0 <;>
  by_cases p2 : cs &&& PAIRING_MODE_BUTTON_MASK = 0 <;>
  by_cases h0 : env s.calls.length = 0 <;>
  by_cases h1 : env (s.calls.length + 1) = 0 <;>
  simp [handle_button_event, bondEraseEdge, pairingEdge, bt_unpair, bt_le_adv_stop,
    e1, e2, p1, p2, h0, h1]

/-! ## The shape of a handler run -/

/-- The calls of one handler run, for every state and every outcome: the
accept-list clear, then accept-list adds only, then at most one
start-advertising call, which is the last call of the run. -/
theorem handler_trace (env : Env) (bonds : List bt_bond_info) (s : State) :
    ∃ adds starts,
      callsSince s (advertisement_handler env bonds s)
        = Call.filter_accept_list_clear :: adds ++ starts ∧
      (∀ x ∈ adds, ∃ a, x = Call.filter_accept_list_add a) ∧
      (starts = [] ∨ ∃ p, starts = [Call.adv_start p]) := by
  by_cases hpair : s.pairing_mode_enabled = true
  · refine ⟨[], [Call.adv_start AdvParam.BT_LE_ADV_CONN_FAST_2], ?_, by simp, Or.inr ⟨_, rfl⟩⟩
    exact callsSince_append s _ _ (handler_pairing env bonds s hpair).1
  · have hpair' : s.pairing_mode_enabled = false := by simpa using hpair
    obtain ⟨h1, _, _, _⟩ := handler_normal env bonds s hpair'
    obtain ⟨⟨t, ht, hadds⟩, _, _⟩ := configure_whitelist_frame env bonds s
    rw [ht, List.append_assoc] at h1
    refine ⟨t, _, callsSince_append s _ _ h1, hadds, ?_⟩
    split_ifs
    · exact Or.inl rfl
    · exact Or.inr ⟨_, rfl⟩
    · exact Or.inr ⟨_, rfl⟩

/-- Every function of the program only appends to the record of stack calls. -/
theorem handler_calls_extend (env : Env) (bonds : List bt_bond_info) (s : State) :
    (advertisement_handler env bonds s).calls
      = s.calls ++ callsSince s (advertisement_handler env bonds s) := by
  by_cases hpair : s.pairing_mode_enabled = true
  · have h := (handler_pairing env bonds s hpair).1
    rw [callsSince_append s _ _ h]; exact h
  · have hpair' : s.pairing_mode_enabled = false := by simpa using hpair
    obtain ⟨h1, _, _, _⟩ := handler_normal env bonds s hpair'
    obtain ⟨⟨t, ht, _⟩, _, _⟩ := configure_whitelist_frame env bonds s
    rw [ht, List.append_assoc] at h1
    rw [callsSince_append s _ _ h1]; exact h1

/-- The drain of an empty queue does nothing; the drain of a queued item is one
handler run on the dequeued state. -/
theorem work_queue_drain_cases (env : Env) (bonds : List bt_bond_info) (s : State) :
    (s.adv_work_pending = false → work_queue_drain env bonds s = s) ∧
    (s.adv_work_pending = true →
      work_queue_drain env bonds s = advertisement_handler env bonds s.dequeued) := by
  constructor <;> intro h <;> simp [work_queue_drain, h]

/-- What one event does to the record of stack calls and to the two flags. -/
theorem step_fields (env : Env) (e : Event) (s : State) :
    (step env e s).calls = s.calls ++ callsSince s (step env e s) ∧
    ((step env e s).adv_work_pending = true →
      s.adv_work_pending = true ∨ e = Event.recycled) ∧
    ((step env e s).pairing_mode_enabled = true →
      s.pairing_mode_enabled = true ∨ e.isPairingRequest = true) ∧
    ((∃ p, Call.adv_start p ∈ callsSince s (step env e s)) →
      s.adv_work_pending = true ∧ ∃ bonds, e = Event.drain bonds) := by
  cases e with
  | connected conn err =>
    have h := (callbacks_fields conn err 0 0 0 s).1
    simp [step, callsSince, h]
    exact fun hp => Or.inl hp
  | disconnected conn reason =>
    have h := (callbacks_fields conn 0 reason 0 0 s).2.1
    simp [step, callsSince, h]
    exact fun hp => Or.inl hp
  | security_changed conn level err =>
    have h := (callbacks_fields conn 0 0 level err s).2.2
    simp [step, callsSince, h]
    exact fun hp => Or.inl hp
  | recycled =>
    simp [step, callsSince, (on_recycled_fields s).1, (on_recycled_fields s).2.2.1]
    exact fun hp => Or.inl hp
  | button cs cm =>
    obtain ⟨h1, _, h3, h4⟩ := handle_button_event_fields env cs cm s
    have hs : callsSince s (handle_button_event env cs cm s)
        = (if bondEraseEdge cs cm = true then [Call.unpair_all] else []) ++
          (if pairingEdge cs cm = true then [Call.adv_stop] else []) :=
      callsSince_append s _ _ h1
    refine ⟨by simp only [step]; rw [hs]; exact h1, ?_, ?_, ?_⟩
    · intro h; left; simpa [step, h4] using h
    · intro h
      simp only [step, h3, Bool.or_eq_true] at h
      simpa [Event.isPairingRequest] using h
    · rintro ⟨p, hp⟩
      simp only [step, hs] at hp
      split_ifs at hp <;> simp at hp
  | drain bonds =>
    by_cases hq : s.adv_work_pending = true
    · have hd := (work_queue_drain_cases env bonds s).2 hq
      have hf := handler_flags env bonds s.dequeued
      have hc := handler_calls_extend env bonds s.dequeued
      refine ⟨?_, ?_, ?_, ?_⟩
      · simp only [step]; rw [hd]; exact hc
      · intro _; exact Or.inl hq
      · intro h; simp only [step] at h; rw [hd, hf.1] at h; exact absurd h (by simp)
      · intro _; exact ⟨hq, bonds, rfl⟩
    · have hq' : s.adv_work_pending = false := by simpa using hq
      have hd := (work_queue_drain_cases env bonds s).1 hq'
      simp [step, hd, callsSince, hq']
      exact fun hp => Or.inl hp

/-! ## Event sequences -/

theorem run_cons (env : Env) (e : Event) (es : List Event) (s : State) :
    run env (e :: es) s = run env es (step env e s) := rfl

theorem mem_startedParams (t : List Call) (p : AdvParam) :
    p ∈ startedParams t ↔ Call.adv_start p ∈ t := by
  induction t with
  | nil => simp [startedParams]
  | cons x xs ih =>
    have hcons : startedParams (x :: xs) = startedParams [x] ++ startedParams xs := by
      rw [← startedParams_append]; rfl
    rw [hcons, List.mem_append, ih, List.mem_cons]
    cases x <;> simp [startedParams]

theorem startedParams_eq_nil (t : List Call) (h : ∀ p, Call.adv_start p ∉ t) :
    startedParams t = [] := by
  apply List.eq_nil_iff_forall_not_mem.mpr
  intro p hp
  exact h p ((mem_startedParams t p).mp hp)

/-- Every event sequence only appends to the record of stack calls. -/
theorem run_calls_extend (env : Env) (es : List Event) :
    ∀ s : State, (run env es s).calls = s.calls ++ callsSince s (run env es s) := by
  induction es with
  | nil => intro s; simp [run, callsSince]
  | cons e es ih =>
    intro s
    rw [run_cons]
    have h1 := (step_fields env e s).1
    have h2 := ih (step env e s)
    have h3 : (run env es (step env e s)).calls
        = s.calls ++ (callsSince s (step env e s)
            ++ callsSince (step env e s) (run env es (step env e s))) := by
      rw [← List.append_assoc, ← h1]; exact h2
    rw [callsSince_append s _ _ h3]; exact h3

/-- The calls of an event sequence are the calls of its first event followed by
the calls of the rest. -/
theorem callsSince_run_cons (env : Env) (e : Event) (es : List Event) (s : State) :
    callsSince s (run env (e :: es) s)
      = callsSince s (step env e s)
          ++ callsSince (step env e s) (run env es (step env e s)) := by
  rw [run_cons]
  apply callsSince_append
  rw [← List.append_assoc, ← (step_fields env e s).1]
  exact run_calls_extend env es (step env e s)

/-- While the work item is not queued and no `recycled` notification arrives,
no event starts advertising and the item stays unqueued. -/
theorem run_without_recycled (env : Env) (es : List Event) :
    ∀ s : State, s.adv_work_pending = false → Event.recycled ∉ es →
      (run env es s).adv_work_pending = false ∧
      startedParams (callsSince s (run env es s)) = [] := by
  induction es with
  | nil => intro s hq _; exact ⟨hq, by simp [run, callsSince, startedParams]⟩
  | cons e es ih =>
    intro s hq hrec
    obtain ⟨_, hpend, _, hstart⟩ := step_fields env e s
    have hne : e ≠ Event.recycled := fun h => hrec (h ▸ List.mem_cons_self _ _)
    have hq1 : (step env e s).adv_work_pending = false := by
      by_contra hcon
      have ht : (step env e s).adv_work_pending = true := by simpa using hcon
      rcases hpend ht with h | h
      · rw [hq] at h; exact absurd h (by simp)
      · exact hne h
    have hno : startedParams (callsSince s (step env e s)) = [] := by
      apply startedParams_eq_nil
      intro p hp
      have := (hstart ⟨p, hp⟩).1
      rw [hq] at this; exact absurd this (by simp)
    obtain ⟨g1, g2⟩ := ih (step env e s) hq1 (fun h => hrec (List.mem_cons_of_mem _ h))
    refine ⟨g1, ?_⟩
    rw [callsSince_run_cons, startedParams_append, hno, g2]; rfl

/-- Without a pairing-request button edge the pairing flag stays off. -/
theorem run_without_pairing_request (env : Env) (es : List Event) :
    ∀ s : State, s.pairing_mode_enabled = false →
      (∀ e ∈ es, e.isPairingRequest = false) →
      (run env es s).pairing_mode_enabled = false := by
  induction es with
  | nil => intro s hp _; exact hp
  | cons e es ih =>
    intro s hp hno
    rw [run_cons]
    apply ih
    · by_contra hcon
      have ht : (step env e s).pairing_mode_enabled = true := by simpa using hcon
      rcases (step_fields env e s).2.2.1 ht with h | h
      · rw [hp] at h; exact absurd h (by simp)
      · rw [hno e (List.mem_cons_self _ _)] at h; exact absurd h (by simp)
    · intro x hx; exact hno x (List.mem_cons_of_mem _ hx)

/-- One event makes at most as many start-advertising calls as the queue
allows: a start uses up the queued work item, and only `recycled` queues it. -/
theorem step_start_budget (env : Env) (e : Event) (s : State) :
    (startedParams (callsSince s (step env e s))).length
        + (if (step env e s).adv_work_pending = true then 1 else 0)
      ≤ (if s.adv_work_pending = true then 1 else 0)
        + (if e = Event.recycled then 1 else 0) := by
  obtain ⟨_, hpend, _, hstart⟩ := step_fields env e s
  by_cases hq : s.adv_work_pending = true
  · by_cases hd : ∃ bonds, e = Event.drain bonds
    · obtain ⟨bonds, rfl⟩ := hd
      have hrun : step env (Event.drain bonds) s
          = advertisement_handler env bonds s.dequeued :=
        (work_queue_drain_cases env bonds s).2 hq
      have hoff : (step env (Event.drain bonds) s).adv_work_pending = false := by
        rw [hrun, (handler_flags env bonds _).2]; rfl
      have hone : (startedParams (callsSince s (step env (Event.drain bonds) s))).length
          ≤ 1 := by
        have hsame : callsSince s (step env (Event.drain bonds) s)
            = callsSince s.dequeued (advertisement_handler env bonds s.dequeued) := by
          rw [hrun]; rfl
        rw [hsame, handler_startedParams]
        split_ifs <;> simp
      rw [hoff, if_pos hq]
      simp only [Bool.false_eq_true, if_false]
      omega
    · have hno : startedParams (callsSince s (step env e s)) = [] := by
        apply startedParams_eq_nil
        intro p hp
        exact hd (hstart ⟨p, hp⟩).2
      rw [hno, if_pos hq]
      simp only [List.length_nil]
      split_ifs <;> omega
  · have hno : startedParams (callsSince s (step env e s)) = [] := by
      apply startedParams_eq_nil
      intro p hp
      exact hq (hstart ⟨p, hp⟩).1
    rw [hno, if_neg hq]
    simp only [List.length_nil]
    by_cases hq1 : (step env e s).adv_work_pending = true
    · rcases hpend hq1 with h | h
      · exact absurd h hq
      · rw [if_pos hq1, if_pos h]
    · rw [if_neg hq1]; omega

/-- Over any event sequence the start-advertising calls are at most the work
item queued at the beginning plus one per `recycled` notification. -/
theorem run_start_budget (env : Env) (es : List Event) :
    ∀ s : State,
      (startedParams (callsSince s (run env es s))).length
          + (if (run env es s).adv_work_pending = true then 1 else 0)
        ≤ (if s.adv_work_pending = true then 1 else 0) + es.count Event.recycled := by
  induction es with
  | nil => intro s; simp [run, callsSince, startedParams]
  | cons e es ih =>
    intro s
    have h1 := step_start_budget env e s
    have h2 := ih (step env e s)
    rw [callsSince_run_cons, startedParams_append, List.length_append, List.count_cons]
    rw [run_cons]
    have hbeq : (if (e == Event.recycled) = true then 1 else 0)
        = (if e = Event.recycled then 1 else 0) := by
      by_cases h : e = Event.recycled <;> simp [h]
    rw [hbeq]
    omega

/-! ## Restart gating and the pairing button -/

/-- C11: a `disconnected` notification, and likewise `connected` and
`security_changed`, submits no work and makes no stack call, so it starts no
advertising.  Over every event sequence that follows a `disconnected`, the
start-advertising calls are at most one per `recycled` notification, plus one
if the work item was already queued; so with the item not queued, no sequence
without a `recycled` notification makes a start-advertising call or queues the
item.  The `recycled` notification is what queues it. -/
theorem restart_gated_on_recycled (env : Env) (conn err reason level sec_err : Nat)
    (es : List Event) (s : State) :
    ((on_disconnected conn reason s).adv_work_pending = s.adv_work_pending ∧
      callsSince s (on_disconnected conn reason s) = []) ∧
    ((on_connected conn err s).adv_work_pending = s.adv_work_pending ∧
      callsSince s (on_connected conn err s) = []) ∧
    ((on_security_changed conn level sec_err s).adv_work_pending = s.adv_work_pending ∧
      callsSince s (on_security_changed conn level sec_err s) = []) ∧
    (startedParams (callsSince s (run env es (on_disconnected conn reason s)))).length
      ≤ (if s.adv_work_pending = true then 1 else 0) + es.count Event.recycled ∧
    (s.adv_work_pending = false → Event.recycled ∉ es →
      startedParams (callsSince s (run env es (on_disconnected conn reason s))) = [] ∧
      (run env es (on_disconnected conn reason s)).adv_work_pending = false) ∧
    (on_recycled (run env es (on_disconnected conn reason s))).adv_work_pending = true := by
  obtain ⟨⟨c1, _, _, c4⟩, ⟨d1, _, _, d4⟩, ⟨e1, _, _, e4⟩⟩ :=
    callbacks_fields conn err reason level sec_err s
  have hsame : callsSince s (run env es (on_disconnected conn reason s))
      = callsSince (on_disconnected conn reason s)
          (run env es (on_disconnected conn reason s)) := by
    simp [callsSince, d1]
  refine ⟨⟨d4, by simp [callsSince, d1]⟩, ⟨c4, by simp [callsSince, c1]⟩,
    ⟨e4, by simp [callsSince, e1]⟩, ?_, ?_, (on_recycled_fields _).2.2.2⟩
  · have hb := run_start_budget env es (on_disconnected conn reason s)
    rw [d4] at hb
    rw [hsame]
    omega
  · intro hq hrec
    obtain ⟨g1, g2⟩ :=
      run_without_recycled env es (on_disconnected conn reason s) (by rw [d4]; exact hq) hrec
    refine ⟨?_, g1⟩
    rw [hsame]; exact g2

/-- C11 instance: the program advertises Restricted, the peer connects and
disconnects; drains, connects and button events follow but no `recycled`, and
no start-advertising call is made. -/
theorem restart_gated_on_recycled_witness :
    restrictedAfterBoot.adv_work_pending = false ∧
    Event.recycled ∉ eventsWithoutRecycled ∧
    startedParams (callsSince restrictedAfterBoot
        (run envAllOk eventsWithoutRecycled (on_disconnected 1 19 restrictedAfterBoot))) = [] :=
  ⟨by decide, by decide,
   ((restart_gated_on_recycled envAllOk 1 0 19 0 0 eventsWithoutRecycled
      restrictedAfterBoot).2.2.2.2.1 (by decide) (by decide)).1⟩

/-- C13: in every run of `configure_whitelist` the accept-list clear is the
first stack call and every other call of the run is an accept-list add that
comes after it; if the clear fails, `configure_whitelist` returns the clear's
error code and the clear is its only call (no add is issued, the accept list
is left as it was). -/
theorem clear_comes_first (env : Env) (bonds : List bt_bond_info) (s : State) :
    (∃ adds, callsSince s (configure_whitelist env bonds s).2
          = Call.filter_accept_list_clear :: adds ∧
        ∀ x ∈ adds, ∃ a, x = Call.filter_accept_list_add a) ∧
    (env s.calls.length ≠ 0 →
      (configure_whitelist env bonds s).1 = env s.calls.length ∧
      callsSince s (configure_whitelist env bonds s).2 = [Call.filter_accept_list_clear] ∧
      (configure_whitelist env bonds s).2.accept_list = s.accept_list) := by
  obtain ⟨⟨t, ht, hadds⟩, _, _⟩ := configure_whitelist_frame env bonds s
  refine ⟨⟨t, callsSince_append s _ _ ht, hadds⟩, ?_⟩
  intro hfail
  obtain ⟨c1, c2, c3, _, _⟩ := configure_whitelist_clear_fail env bonds s hfail
  exact ⟨c1, callsSince_append s _ _ c2, c3⟩

/-- C13 instance: three bonds stored and the clear fails with -11; the rebuild
returns -11 after the clear alone. -/
theorem clear_comes_first_witness :
    envFailAt 5 (-11) restrictedAfterBoot.calls.length ≠ 0 ∧
    (configure_whitelist (envFailAt 5 (-11)) threeBonds restrictedAfterBoot).1 = -11 ∧
    callsSince restrictedAfterBoot
        (configure_whitelist (envFailAt 5 (-11)) threeBonds restrictedAfterBoot).2
      = [Call.filter_accept_list_clear] :=
  ⟨by decide,
   ((clear_comes_first (envFailAt 5 (-11)) threeBonds restrictedAfterBoot).2
      (by decide)).1,
   ((clear_comes_first (envFailAt 5 (-11)) threeBonds restrictedAfterBoot).2
      (by decide)).2.1⟩

/-- C14 as stated fails: pairing mode is off, three bonds are stored and the
accept-list clear of the rebuild fails with -11.  The handler run consists of
that clear alone; no start-advertising call is made, Open or otherwise. -/
theorem clear_error_open_fallback_counterexample :
    restrictedAfterBoot.pairing_mode_enabled = false ∧
    envFailAt 5 (-11) restrictedAfterBoot.calls.length ≠ 0 ∧
    callsSince restrictedAfterBoot
        (advertisement_handler (envFailAt 5 (-11)) threeBonds restrictedAfterBoot)
      = [Call.filter_accept_list_clear] ∧
    AdvParam.BT_LE_ADV_CONN_FAST_2 ∉
      startedParams (callsSince restrictedAfterBoot
        (advertisement_handler (envFailAt 5 (-11)) threeBonds restrictedAfterBoot)) := by
  decide

/-- C14 amended: with pairing mode off, if the accept-list clear performed by
the rebuild fails with a negative error code, one run of
`advertisement_handler` makes no start-advertising call: the clear is its only
call, and the accept list, the pairing flag and the work item are left as they
were. -/
theorem clear_error_no_start (env : Env) (bonds : List bt_bond_info) (s : State)
    (hpair : s.pairing_mode_enabled = false)
    (hclear : env s.calls.length < 0) :
    callsSince s (advertisement_handler env bonds s) = [Call.filter_accept_list_clear] ∧
    startedParams (callsSince s (advertisement_handler env bonds s)) = [] ∧
    (advertisement_handler env bonds s).accept_list = s.accept_list ∧
    (advertisement_handler env bonds s).pairing_mode_enabled = false ∧
    (advertisement_handler env bonds s).adv_work_pending = s.adv_work_pending := by
  have hne : env s.calls.length ≠ 0 := by omega
  obtain ⟨c1, c2, c3, _, c5⟩ := configure_whitelist_clear_fail env bonds s hne
  obtain ⟨h1, h2, _, h4⟩ := handler_normal env bonds s hpair
  have hneg : (configure_whitelist env bonds s).1 < 0 := by rw [c1]; exact hclear
  rw [if_pos hneg, List.append_nil, c2] at h1
  have htrace := callsSince_append s _ _ h1
  refine ⟨htrace, by rw [htrace]; rfl, by rw [h2, c3], (handler_flags env bonds s).1,
    by rw [h4, c5]⟩

/-- C14 amended, instance: the clear fails with -11 while the program
advertises Restricted on three bonds. -/
theorem clear_error_no_start_witness :
    restrictedAfterBoot.pairing_mode_enabled = false ∧
    envFailAt 5 (-11) restrictedAfterBoot.calls.length < 0 ∧
    startedParams (callsSince restrictedAfterBoot
        (advertisement_handler (envFailAt 5 (-11)) threeBonds restrictedAfterBoot)) = [] :=
  ⟨by decide, by decide,
   (clear_error_no_start (envFailAt 5 (-11)) threeBonds restrictedAfterBoot
      (by decide) (by decide)).2.1⟩

/-- C15: for every button event and every result of the erase,
`handle_button_event` calls `bt_unpair` exactly once if the changed mask has
the bond-erase bit and the current state has that bit clear, and not at all
otherwise.  The event never starts advertising, never submits the work item
and never changes the accept list; stop-advertising and the pairing flag are
touched by the pairing-request edge only, so an event without that edge calls
nothing but the erase and leaves `pairing_mode_enabled` as it was. -/
theorem bond_erase_independent (env : Env) (cs cm : Nat) (s : State) :
    (bondEraseEdge cs cm = true ↔
      (cm &&& BOND_ERASE_BUTTON_MASK ≠ 0 ∧ cs &&& BOND_ERASE_BUTTON_MASK = 0)) ∧
    (callsSince s (handle_button_event env cs cm s)).count Call.unpair_all
      = (if bondEraseEdge cs cm = true then 1 else 0) ∧
    (∀ p, Call.adv_start p ∉ callsSince s (handle_button_event env cs cm s)) ∧
    (handle_button_event env cs cm s).adv_work_pending = s.adv_work_pending ∧
    (handle_button_event env cs cm s).accept_list = s.accept_list ∧
    (pairingEdge cs cm = false →
      callsSince s (handle_button_event env cs cm s)
        = (if bondEraseEdge cs cm = true then [Call.unpair_all] else []) ∧
      (handle_button_event env cs cm s).pairing_mode_enabled = s.pairing_mode_enabled) := by
  obtain ⟨h1, h2, h3, h4⟩ := handle_button_event_fields env cs cm s
  have hs := callsSince_append s _ _ h1
  refine ⟨by simp [bondEraseEdge], ?_, ?_, h4, h2, ?_⟩
  · rw [hs]; split_ifs <;> simp
  · intro p; rw [hs]; split_ifs <;> simp
  · intro hno
    rw [hno] at h3
    refine ⟨?_, by simpa using h3⟩
    rw [hs, hno]; simp

/-- C15 instance: the bond-erase button edge while the program advertises
Restricted, with the erase failing: one `bt_unpair` call and nothing else. -/
theorem bond_erase_independent_witness :
    pairingEdge 0 BOND_ERASE_BUTTON_MASK = false ∧
    bondEraseEdge 0 BOND_ERASE_BUTTON_MASK = true ∧
    callsSince restrictedAfterBoot
        (handle_button_event (envFailAt 5 (-22)) 0 BOND_ERASE_BUTTON_MASK restrictedAfterBoot)
      = [Call.unpair_all] :=
  ⟨by decide, by decide,
   ((bond_erase_independent (envFailAt 5 (-22)) 0 BOND_ERASE_BUTTON_MASK
      restrictedAfterBoot).2.2.2.2.2 (by decide)).1⟩

/-- C16: for every controller state, bond list and capability outcome, a run of
`advertisement_handler` never calls stop-advertising (nor `bt_unpair`). -/
theorem selector_only_starts (env : Env) (bonds : List bt_bond_info) (s : State) :
    Call.adv_stop ∉ callsSince s (advertisement_handler env bonds s) ∧
    Call.unpair_all ∉ callsSince s (advertisement_handler env bonds s) := by
  obtain ⟨adds, starts, ht, hadds, hstarts⟩ := handler_trace env bonds s
  rw [ht]
  constructor <;>
  · intro hmem
    rcases List.mem_append.mp hmem with h | h
    · rcases List.mem_cons.mp h with h | h
      · cases h
      · obtain ⟨a, ha⟩ := hadds _ h; cases ha
    · rcases hstarts with rfl | ⟨p, rfl⟩
      · simp at h
      · simp at h

/-- C17: for every controller state and capability outcome, one run of
`advertisement_handler` issues at most one start-advertising call; that call,
whatever it returns, is the last stack call of the run, and the run does not
submit the work item again. -/
theorem no_internal_retry (env : Env) (bonds : List bt_bond_info) (s : State) :
    (startedParams (callsSince s (advertisement_handler env bonds s))).length ≤ 1 ∧
    (∀ p, Call.adv_start p ∈ callsSince s (advertisement_handler env bonds s) →
      ∃ before, callsSince s (advertisement_handler env bonds s)
          = before ++ [Call.adv_start p] ∧
        ∀ q, Call.adv_start q ∉ before) ∧
    (advertisement_handler env bonds s).adv_work_pending = s.adv_work_pending := by
  obtain ⟨adds, starts, ht, hadds, hstarts⟩ := handler_trace env bonds s
  have hpre : ∀ q, Call.adv_start q ∉ Call.filter_accept_list_clear :: adds := by
    intro q hq
    rcases List.mem_cons.mp hq with h | h
    · cases h
    · obtain ⟨a, ha⟩ := hadds _ h; cases ha
  have hpre0 : startedParams (Call.filter_accept_list_clear :: adds) = [] :=
    startedParams_eq_nil _ hpre
  refine ⟨?_, ?_, (handler_flags env bonds s).2⟩
  · rw [ht, startedParams_append, hpre0]
    rcases hstarts with rfl | ⟨p, rfl⟩ <;> simp [startedParams]
  · intro p hp
    rw [ht] at hp ⊢
    rcases List.mem_append.mp hp with h | h
    · exact absurd h (hpre p)
    · rcases hstarts with rfl | ⟨p', rfl⟩
      · simp at h
      · have hpp : p = p' := by simpa using h
        subst hpp
        exact ⟨_, rfl, hpre⟩

/-- C17 instance: three bonds, every add succeeds and the start call (call
number 4) fails with -5; it is the only start and the last call of the run. -/
theorem no_internal_retry_witness :
    envFailAt 4 (-5) 4 ≠ 0 ∧
    callsSince State.initial
        (advertisement_handler (envFailAt 4 (-5)) threeBonds State.initial)
      = [Call.filter_accept_list_clear,
         Call.filter_accept_list_add (bond 1).addr,
         Call.filter_accept_list_add (bond 2).addr,
         Call.filter_accept_list_add (bond 3).addr,
         Call.adv_start AdvParam.BT_LE_ADV_CONN_ACCEPT_LIST] ∧
    (startedParams (callsSince State.initial
        (advertisement_handler (envFailAt 4 (-5)) threeBonds State.initial))).length ≤ 1 :=
  ⟨by decide, by decide,
   (no_internal_retry (envFailAt 4 (-5)) threeBonds State.initial).1⟩

/-- C18: `pairing_mode_enabled` goes from false to true only by a button event
with the pairing-request edge; after every run of `advertisement_handler`, on
either path and for every outcome, it is false; and it stays false over every
later sequence of events without a pairing-request edge, so the next handler
run performs the accept-list selection (the rebuild of `configure_whitelist`,
then at most one start). -/
theorem pairing_mode_one_shot (env : Env) (bonds nextBonds : List bt_bond_info)
    (e : Event) (es : List Event) (s : State) :
    (s.pairing_mode_enabled = false → (step env e s).pairing_mode_enabled = true →
      e.isPairingRequest = true) ∧
    (advertisement_handler env bonds s).pairing_mode_enabled = false ∧
    ((∀ x ∈ es, x.isPairingRequest = false) →
      (run env es (advertisement_handler env bonds s)).pairing_mode_enabled = false ∧
      ∃ t, callsSince (run env es (advertisement_handler env bonds s))
              (advertisement_handler env nextBonds
                (run env es (advertisement_handler env bonds s)))
            = callsSince (run env es (advertisement_handler env bonds s))
                (configure_whitelist env nextBonds
                  (run env es (advertisement_handler env bonds s))).2 ++ t ∧
           t.length ≤ 1 ∧ ∀ c ∈ t, ∃ p, c = Call.adv_start p) := by
  refine ⟨?_, (handler_flags env bonds s).1, ?_⟩
  · intro hoff hon
    rcases (step_fields env e s).2.2.1 hon with h | h
    · rw [hoff] at h; exact absurd h (by simp)
    · exact h
  · intro hno
    have hflag := run_without_pairing_request env es (advertisement_handler env bonds s)
      (handler_flags env bonds s).1 hno
    refine ⟨hflag, ?_⟩
    generalize run env es (advertisement_handler env bonds s) = r at hflag ⊢
    obtain ⟨h1, _, _, _⟩ := handler_normal env nextBonds r hflag
    obtain ⟨⟨t, ht, _⟩, _, _⟩ := configure_whitelist_frame env nextBonds r
    rw [callsSince_append r _ _ ht]
    refine ⟨_, callsSince_append r _ _ (by rw [h1, ht, List.append_assoc]), ?_, ?_⟩
    · split_ifs <;> simp
    · intro c hc
      split_ifs at hc <;> simp at hc <;> exact ⟨_, hc⟩

/-- C18 instance: a pairing run, then a connection that comes and goes, the
erase button, a release of the pairing button and a recycle; the flag is off
when the next handler run begins. -/
theorem pairing_mode_one_shot_witness :
    pairingAfterRestricted.pairing_mode_enabled = true ∧
    (∀ x ∈ eventsWithoutPairingRequest, x.isPairingRequest = false) ∧
    (run envAllOk eventsWithoutPairingRequest
        (advertisement_handler envAllOk threeBonds
          pairingAfterRestricted)).pairing_mode_enabled = false :=
  ⟨by decide, by decide,
   ((pairing_mode_one_shot envAllOk threeBonds threeBonds Event.recycled
      eventsWithoutPairingRequest pairingAfterRestricted).2.2 (by decide)).1⟩

end Whitelisting

/-! # Connection reference tracking: lemmas -/

namespace AdvertConnectable

open BtConn

/-- What `on_connected` does, by status. -/
theorem on_connected_fields (conn err : Nat) (s : State) :
    (err ≠ 0 → (on_connected conn err s).my_conn = s.my_conn ∧
      (on_connected conn err s).calls = s.calls) ∧
    (err = 0 → (on_connected conn err s).my_conn = some conn ∧
      (on_connected conn err s).calls = s.calls ++ [Call.conn_ref conn]) := by
  constructor <;> intro h <;> simp [on_connected, h, State.logf, bt_conn_ref]

/-- What `on_disconnected` does, by what is stored. -/
theorem on_disconnected_fields (conn reason : Nat) (s : State) :
    (on_disconnected conn reason s).my_conn = none ∧
    (on_disconnected conn reason s).calls
      = s.calls ++ (match s.my_conn with
          | some held => [Call.conn_unref held]
          | none => []) := by
  cases h : s.my_conn <;> simp [on_disconnected, State.logf, bt_conn_unref, h]

theorem connectable_balanced_initial : Balanced State.initial := by
  intro c; simp [State.initial, acquisitions, releases]

theorem connectable_balanced_step (e : ConnEvent) (s : State) (hb : Balanced s)
    (hlink : ∀ conn err, e = ConnEvent.connected conn err → err = 0 → s.my_conn = none) :
    Balanced (step e s) := by
  intro c
  have hc := hb c
  cases e with
  | connected conn err =>
    by_cases herr : err = 0
    · obtain ⟨h1, h2⟩ := (on_connected_fields conn err s).2 herr
      have hnone := hlink conn err rfl herr
      rw [hnone] at hc
      simp only [step, h1, h2]
      by_cases hcc : c = conn
      · subst hcc
        simp [acquisitions, releases] at hc ⊢
        omega
      · have hcc' : ¬ conn = c := fun h => hcc h.symm
        simp [acquisitions, releases, hcc, hcc'] at hc ⊢
        omega
    · obtain ⟨h1, h2⟩ := (on_connected_fields conn err s).1 herr
      simp only [step, h1, h2]; exact hc
  | disconnected conn reason =>
    obtain ⟨h1, h2⟩ := on_disconnected_fields conn reason s
    simp only [step, h1, h2]
    cases hm : s.my_conn with
    | none =>
      rw [hm] at hc
      simpa using hc
    | some held =>
      rw [hm] at hc
      by_cases hcc : held = c
      · subst hcc
        simp [acquisitions, releases] at hc ⊢
        omega
      · have hcc' : ¬ c = held := fun h => hcc h.symm
        simp [acquisitions, releases, hcc, hcc'] at hc ⊢
        omega

theorem connectable_run_append (a b : List ConnEvent) (s : State) :
    run (a ++ b) s = run b (run a s) := by
  simp [run, List.foldl_append]

theorem connectable_singleLink_prefix (a b : List ConnEvent) :
    ∀ s : State, singleLink (a ++ b) s = true → singleLink a s = true := by
  induction a with
  | nil => intro s _; rfl
  | cons e es ih =>
    intro s h
    simp only [List.cons_append, singleLink, Bool.and_eq_true] at h ⊢
    exact ⟨h.1, ih _ h.2⟩

theorem connectable_balanced_run (es : List ConnEvent) :
    ∀ s : State, Balanced s → singleLink es s = true → Balanced (run es s) := by
  induction es with
  | nil => intro s hb _; exact hb
  | cons e es ih =>
    intro s hb h
    simp only [singleLink, Bool.and_eq_true] at h
    have hstep : Balanced (step e s) := by
      apply connectable_balanced_step e s hb
      intro conn err he herr
      subst he
      simpa [herr] using h.1
    exact ih (step e s) hstep h.2

end AdvertConnectable

namespace ConnParams

open BtConn

/-- What `on_conn_established` does, by status and for every outcome of the
requests it makes. -/
theorem on_conn_established_fields (env : Env) (conn err : Nat) (s : State) :
    (err ≠ 0 → (on_conn_established env conn err s).active_conn = s.active_conn ∧
      (on_conn_established env conn err s).calls = s.calls) ∧
    (err = 0 → (on_conn_established env conn err s).active_conn = some conn ∧
      (on_conn_established env conn err s).calls
        = s.calls ++ [Call.conn_ref conn, Call.conn_get_info conn,
            Call.conn_le_phy_update conn, Call.conn_le_data_len_update conn,
            Call.gatt_exchange_mtu conn]) := by
  constructor
  · intro h; simp [on_conn_established, h, State.logf]
  · intro h
    by_cases h1 : env (s.calls.length + 1) = 0 <;>
    by_cases h2 : env (s.calls.length + 1 + 1) = 0 <;>
    by_cases h3 : env (s.calls.length + 1 + 1 + 1) = 0 <;>
    by_cases h4 : env (s.calls.length + 1 + 1 + 1 + 1) = 0 <;>
    simp [on_conn_established, h, State.logf, State.record, bt_conn_ref, bt_conn_get_info,
      request_phy_update, request_data_len_update, trigger_mtu_exchange,
      bt_conn_le_phy_update, bt_conn_le_data_len_update, bt_gatt_exchange_mtu,
      h1, h2, h3, h4]

/-- What `on_conn_terminated` does, by what is stored. -/
theorem on_conn_terminated_fields (conn reason : Nat) (s : State) :
    (on_conn_terminated conn reason s).active_conn = none ∧
    (on_conn_terminated conn reason s).calls
      = s.calls ++ (match s.active_conn with
          | some held => [Call.conn_unref held]
          | none => []) := by
  cases h : s.active_conn <;>
  simp [on_conn_terminated, State.logf, State.record, bt_conn_unref, h]

theorem params_balanced_initial : Balanced State.initial := by
  intro c; simp [State.initial, acquisitions, releases]

theorem params_balanced_step (env : Env) (e : ConnEvent) (s : State) (hb : Balanced s)
    (hlink : ∀ conn err, e = ConnEvent.connected conn err → err = 0 →
      s.active_conn = none) :
    Balanced (step env e s) := by
  intro c
  have hc := hb c
  cases e with
  | connected conn err =>
    by_cases herr : err = 0
    · obtain ⟨h1, h2⟩ := (on_conn_established_fields env conn err s).2 herr
      have hnone := hlink conn err rfl herr
      rw [hnone] at hc
      simp only [step, h1, h2]
      by_cases hcc : c = conn
      · subst hcc
        simp [acquisitions, releases] at hc ⊢
        omega
      · have hcc' : ¬ conn = c := fun h => hcc h.symm
        simp [acquisitions, releases, hcc, hcc'] at hc ⊢
        omega
    · obtain ⟨h1, h2⟩ := (on_conn_established_fields env conn err s).1 herr
      simp only [step, h1, h2]; exact hc
  | disconnected conn reason =>
    obtain ⟨h1, h2⟩ := on_conn_terminated_fields conn reason s
    simp only [step, h1, h2]
    cases hm : s.active_conn with
    | none =>
      rw [hm] at hc
      simpa using hc
    | some held =>
      rw [hm] at hc
      by_cases hcc : held = c
      · subst hcc
        simp [acquisitions, releases] at hc ⊢
        omega
      · have hcc' : ¬ c = held := fun h => hcc h.symm
        simp [acquisitions, releases, hcc, hcc'] at hc ⊢
        omega

theorem params_run_append (env : Env) (a b : List ConnEvent) (s : State) :
    run env (a ++ b) s = run env b (run env a s) := by
  simp [run, List.foldl_append]

theorem params_singleLink_prefix (env : Env) (a b : List ConnEvent) :
    ∀ s : State, singleLink env (a ++ b) s = true → singleLink env a s = true := by
  induction a with
  | nil => intro s _; rfl
  | cons e es ih =>
    intro s h
    simp only [List.cons_append, singleLink, Bool.and_eq_true] at h ⊢
    exact ⟨h.1, ih _ h.2⟩

theorem params_balanced_run (env : Env) (es : List ConnEvent) :
    ∀ s : State, Balanced s → singleLink env es s = true → Balanced (run env es s) := by
  induction es with
  | nil => intro s hb _; exact hb
  | cons e es ih =>
    intro s hb h
    simp only [singleLink, Bool.and_eq_true] at h
    have hstep : Balanced (step env e s) := by
      apply params_balanced_step env e s hb
      intro conn err he herr
      subst he
      simpa [herr] using h.1
    exact ih (step env e s) hstep h.2

end ConnParams

/-! # Connection reference tracking: the handle -/

namespace BtConn

/-- C19: for every non-zero status `err`, `on_connected` (connectable sample)
and `on_conn_established` (parameter sample) make no stack call, so they take
no connection reference and issue no PHY, data-length or MTU request, and they
leave the stored reference (`my_conn`, `active_conn`) exactly as it was.  With
`err = 0` the stored reference becomes the one `bt_conn_ref(conn)` returns,
a reference to `conn`. -/
theorem failed_connect_acquires_no_handle (env : Env) (conn err : Nat)
    (s : AdvertConnectable.State) (t : ConnParams.State) :
    (err ≠ 0 →
      ((AdvertConnectable.on_connected conn err s).my_conn = s.my_conn ∧
        (AdvertConnectable.on_connected conn err s).calls = s.calls) ∧
      ((ConnParams.on_conn_established env conn err t).active_conn = t.active_conn ∧
        (ConnParams.on_conn_established env conn err t).calls = t.calls)) ∧
    (err = 0 →
      ((AdvertConnectable.on_connected conn err s).my_conn = some conn ∧
        (AdvertConnectable.on_connected conn err s).calls
          = s.calls ++ [Call.conn_ref conn]) ∧
      ((ConnParams.on_conn_established env conn err t).active_conn = some conn ∧
        acquisitions conn (ConnParams.on_conn_established env conn err t).calls
          = acquisitions conn t.calls + 1)) := by
  constructor
  · intro h
    exact ⟨(AdvertConnectable.on_connected_fields conn err s).1 h,
      (ConnParams.on_conn_established_fields env conn err t).1 h⟩
  · intro h
    obtain ⟨c1, c2⟩ := (ConnParams.on_conn_established_fields env conn err t).2 h
    refine ⟨(AdvertConnectable.on_connected_fields conn err s).2 h, c1, ?_⟩
    rw [c2]
    simp [acquisitions]

/-- C19 instance: a connect that fails with status 62 while connection 7 is
held leaves the stored reference and the call record alone, in both samples. -/
theorem failed_connect_acquires_no_handle_witness :
    (62 : Nat) ≠ 0 ∧
    (AdvertConnectable.on_connected 8 62
        (AdvertConnectable.on_connected 7 0 AdvertConnectable.State.initial)).my_conn
      = some 7 ∧
    (ConnParams.on_conn_established (fun _ => 0) 8 62
        (ConnParams.on_conn_established (fun _ => 0) 7 0 ConnParams.State.initial)).calls
      = (ConnParams.on_conn_established (fun _ => 0) 7 0 ConnParams.State.initial).calls :=
  ⟨by decide,
   ((failed_connect_acquires_no_handle (fun _ => 0) 8 62
      (AdvertConnectable.on_connected 7 0 AdvertConnectable.State.initial)
      (ConnParams.on_conn_established (fun _ => 0) 7 0 ConnParams.State.initial)).1
      (by decide)).1.1,
   ((failed_connect_acquires_no_handle (fun _ => 0) 8 62
      (AdvertConnectable.on_connected 7 0 AdvertConnectable.State.initial)
      (ConnParams.on_conn_established (fun _ => 0) 7 0 ConnParams.State.initial)).1
      (by decide)).2.2⟩

/-- C20: take any sequence of connected/disconnected notifications, from
reset, that respects the single-link assumption, in either sample.  After
every prefix of it the releases of each connection do not exceed its
acquisitions; and after every prefix that ends in a `disconnected`
notification the stored reference is `NULL` and every connection has been
released exactly as often as it was acquired. -/
theorem handle_lifecycle (env : Env) (events before : List ConnEvent) (conn reason : Nat) :
    (AdvertConnectable.singleLink events AdvertConnectable.State.initial = true →
      (before <+: events →
        ∀ c, releases c (AdvertConnectable.run before AdvertConnectable.State.initial).calls
          ≤ acquisitions c
              (AdvertConnectable.run before AdvertConnectable.State.initial).calls) ∧
      (before ++ [ConnEvent.disconnected conn reason] <+: events →
        (AdvertConnectable.run (before ++ [ConnEvent.disconnected conn reason])
            AdvertConnectable.State.initial).my_conn = none ∧
        ∀ c, releases c
              (AdvertConnectable.run (before ++ [ConnEvent.disconnected conn reason])
                AdvertConnectable.State.initial).calls
          = acquisitions c
              (AdvertConnectable.run (before ++ [ConnEvent.disconnected conn reason])
                AdvertConnectable.State.initial).calls)) ∧
    (ConnParams.singleLink env events ConnParams.State.initial = true →
      (before <+: events →
        ∀ c, releases c (ConnParams.run env before ConnParams.State.initial).calls
          ≤ acquisitions c (ConnParams.run env before ConnParams.State.initial).calls) ∧
      (before ++ [ConnEvent.disconnected conn reason] <+: events →
        (ConnParams.run env (before ++ [ConnEvent.disconnected conn reason])
            ConnParams.State.initial).active_conn = none ∧
        ∀ c, releases c
              (ConnParams.run env (before ++ [ConnEvent.disconnected conn reason])
                ConnParams.State.initial).calls
          = acquisitions c
              (ConnParams.run env (before ++ [ConnEvent.disconnected conn reason])
                ConnParams.State.initial).calls)) := by
  constructor
  · intro hlink
    constructor
    · rintro ⟨rest, rfl⟩ c
      have hb := AdvertConnectable.connectable_balanced_run before _ AdvertConnectable.connectable_balanced_initial
        (AdvertConnectable.connectable_singleLink_prefix before rest _ hlink)
      have := hb c
      omega
    · rintro ⟨rest, rfl⟩
      have hb := AdvertConnectable.connectable_balanced_run _ _ AdvertConnectable.connectable_balanced_initial
        (AdvertConnectable.connectable_singleLink_prefix _ rest _ hlink)
      have hnone : (AdvertConnectable.run (before ++ [ConnEvent.disconnected conn reason])
          AdvertConnectable.State.initial).my_conn = none := by
        rw [AdvertConnectable.connectable_run_append]
        exact (AdvertConnectable.on_disconnected_fields conn reason _).1
      refine ⟨hnone, fun c => ?_⟩
      have := hb c
      rw [hnone] at this
      simpa using this.symm
  · intro hlink
    constructor
    · rintro ⟨rest, rfl⟩ c
      have hb := ConnParams.params_balanced_run env before _ ConnParams.params_balanced_initial
        (ConnParams.params_singleLink_prefix env before rest _ hlink)
      have := hb c
      omega
    · rintro ⟨rest, rfl⟩
      have hb := ConnParams.params_balanced_run env _ _ ConnParams.params_balanced_initial
        (ConnParams.params_singleLink_prefix env _ rest _ hlink)
      have hnone : (ConnParams.run env (before ++ [ConnEvent.disconnected conn reason])
          ConnParams.State.initial).active_conn = none := by
        rw [ConnParams.params_run_append]
        exact (ConnParams.on_conn_terminated_fields conn reason _).1
      refine ⟨hnone, fun c => ?_⟩
      have := hb c
      rw [hnone] at this
      simpa using this.symm

/-- C20 instance: a failed connect, link 7 up and down (with a second, stray
`disconnected`), link 8 up and down; after the first disconnect of link 7 the
stored reference is `NULL` and link 7 was released once. -/
theorem handle_lifecycle_witness :
    AdvertConnectable.singleLink twoLinks AdvertConnectable.State.initial = true ∧
    (twoLinks.take 2 ++ [ConnEvent.disconnected 7 19]) <+: twoLinks ∧
    (AdvertConnectable.run (twoLinks.take 2 ++ [ConnEvent.disconnected 7 19])
        AdvertConnectable.State.initial).my_conn = none ∧
    releases 7 (AdvertConnectable.run (twoLinks.take 2 ++ [ConnEvent.disconnected 7 19])
        AdvertConnectable.State.initial).calls = 1 :=
  ⟨by decide, ⟨twoLinks.drop 3, by decide⟩,
   (((handle_lifecycle (fun _ => 0) twoLinks (twoLinks.take 2) 7 19).1 (by decide)).2
      ⟨twoLinks.drop 3, by decide⟩).1,
   ((((handle_lifecycle (fun _ => 0) twoLinks (twoLinks.take 2) 7 19).1 (by decide)).2
      ⟨twoLinks.drop 3, by decide⟩).2 7).trans (by decide)⟩

end BtConn

/-! # Whitelisting: abort of the rebuild, the pairing button -/

namespace Whitelisting

/-- C21: when the clear has succeeded and the add for the bond at index `k`
(counting from 0, so bond number `k + 1`) is the first to fail,
`configure_whitelist` issues the adds for the first `k + 1` bonds, in order,
and none for any later bond; the accept list afterwards holds exactly the
addresses of the `k` bonds before the failing one. -/
theorem rebuild_aborts_at_first_failed_add (env : Env) (bonds : List bt_bond_info)
    (s : State) (k : Nat) (hk : k < bonds.length)
    (hclear : env s.calls.length = 0)
    (hbefore : ∀ i, i < k → env (s.calls.length + 1 + i) = 0)
    (hfail : env (s.calls.length + 1 + k) ≠ 0) :
    callsSince s (configure_whitelist env bonds s).2
      = Call.filter_accept_list_clear ::
          (bonds.take (k + 1)).map (fun b => Call.filter_accept_list_add b.addr) ∧
    ((callsSince s (configure_whitelist env bonds s).2).filter
        (fun c => decide (c ≠ Call.filter_accept_list_clear))).length = k + 1 ∧
    (configure_whitelist env bonds s).2.accept_list
      = (bonds.take k).map (fun b => b.addr) := by
  obtain ⟨_, c2, c3, _, _⟩ := configure_whitelist_fail env bonds s k hk hclear hbefore hfail
  have htrace := callsSince_append s _ _ c2
  refine ⟨htrace, ?_, c3⟩
  rw [htrace]
  have hall : ∀ x ∈ (bonds.take (k + 1)).map (fun b => Call.filter_accept_list_add b.addr),
      decide (x ≠ Call.filter_accept_list_clear) = true := by
    intro x hx
    obtain ⟨b, _, rfl⟩ := List.mem_map.mp hx
    simp
  rw [List.filter_cons_of_neg (by simp), List.filter_eq_self.mpr hall, List.length_map,
    List.length_take]
  omega

/-- C21 instance: seven calls are on record, the 2nd of three adds fails; two
adds are issued and the accept list holds the first bond only. -/
theorem rebuild_aborts_at_first_failed_add_witness :
    1 < threeBonds.length ∧
    envFailAt 7 (-12) restrictedAfterBoot.calls.length = 0 ∧
    (∀ i, i < 1 → envFailAt 7 (-12) (restrictedAfterBoot.calls.length + 1 + i) = 0) ∧
    envFailAt 7 (-12) (restrictedAfterBoot.calls.length + 1 + 1) ≠ 0 ∧
    callsSince restrictedAfterBoot
        (configure_whitelist (envFailAt 7 (-12)) threeBonds restrictedAfterBoot).2
      = [Call.filter_accept_list_clear, Call.filter_accept_list_add (bond 1).addr,
         Call.filter_accept_list_add (bond 2).addr] ∧
    (configure_whitelist (envFailAt 7 (-12)) threeBonds restrictedAfterBoot).2.accept_list
      = [(bond 1).addr] :=
  ⟨by decide, by decide, by decide, by decide,
   (rebuild_aborts_at_first_failed_add (envFailAt 7 (-12)) threeBonds restrictedAfterBoot 1
      (by decide) (by decide) (by decide) (by decide)).1,
   (rebuild_aborts_at_first_failed_add (envFailAt 7 (-12)) threeBonds restrictedAfterBoot 1
      (by decide) (by decide) (by decide) (by decide)).2.2⟩

/-- C22: for every result of stop-advertising, `handle_button_event` on a
pairing-request edge ends with `pairing_mode_enabled = true`, has called
stop-advertising exactly once, has made no start-advertising call and has not
submitted the work item.  Afterwards the start-advertising calls of any event
sequence are at most one per `recycled` notification, plus one if the item was
already queued; with the item not queued, no sequence without `recycled`
starts advertising. -/
theorem pairing_button_never_restarts (env : Env) (cs cm : Nat) (es : List Event)
    (s : State) (hedge : pairingEdge cs cm = true) :
    (handle_button_event env cs cm s).pairing_mode_enabled = true ∧
    (callsSince s (handle_button_event env cs cm s)).count Call.adv_stop = 1 ∧
    (∀ p, Call.adv_start p ∉ callsSince s (handle_button_event env cs cm s)) ∧
    (handle_button_event env cs cm s).adv_work_pending = s.adv_work_pending ∧
    (startedParams (callsSince (handle_button_event env cs cm s)
        (run env es (handle_button_event env cs cm s)))).length
      ≤ (if s.adv_work_pending = true then 1 else 0) + es.count Event.recycled ∧
    (s.adv_work_pending = false → Event.recycled ∉ es →
      startedParams (callsSince (handle_button_event env cs cm s)
        (run env es (handle_button_event env cs cm s))) = []) := by
  obtain ⟨h1, _, h3, h4⟩ := handle_button_event_fields env cs cm s
  rw [hedge] at h1 h3
  simp only [if_true] at h1
  have hs := callsSince_append s _ _ h1
  refine ⟨by simpa using h3, ?_, ?_, h4, ?_, ?_⟩
  · rw [hs]; split_ifs <;> simp
  · intro p; rw [hs]; split_ifs <;> simp
  · have hb := run_start_budget env es (handle_button_event env cs cm s)
    rw [h4] at hb
    omega
  · intro hq hrec
    exact (run_without_recycled env es (handle_button_event env cs cm s)
      (by rw [h4]; exact hq) hrec).2

/-- C22 instance: the pairing button is pressed while the program advertises
Restricted and stop-advertising fails with -120; the flag is set and the
events that follow, none of them `recycled`, start nothing. -/
theorem pairing_button_never_restarts_witness :
    pairingEdge 0 PAIRING_MODE_BUTTON_MASK = true ∧
    envFailAt 5 (-120) restrictedAfterBoot.calls.length ≠ 0 ∧
    (handle_button_event (envFailAt 5 (-120)) 0 PAIRING_MODE_BUTTON_MASK
        restrictedAfterBoot).pairing_mode_enabled = true ∧
    startedParams (callsSince
        (handle_button_event (envFailAt 5 (-120)) 0 PAIRING_MODE_BUTTON_MASK
          restrictedAfterBoot)
        (run (envFailAt 5 (-120)) eventsWithoutRecycled
          (handle_button_event (envFailAt 5 (-120)) 0 PAIRING_MODE_BUTTON_MASK
            restrictedAfterBoot))) = [] :=
  ⟨by decide, by decide,
   (pairing_button_never_restarts (envFailAt 5 (-120)) 0 PAIRING_MODE_BUTTON_MASK
      eventsWithoutRecycled restrictedAfterBoot (by decide)).1,
   (pairing_button_never_restarts (envFailAt 5 (-120)) 0 PAIRING_MODE_BUTTON_MASK
      eventsWithoutRecycled restrictedAfterBoot (by decide)).2.2.2.2.2
      (by decide) (by decide)⟩

end Whitelisting

/-! # Connection reference tracking: stale notifications -/

namespace BtConn

/-- C23 as stated fails: connection 7 is held and a `disconnected`
notification names connection 8.  Both samples release the held connection 7
and clear the stored reference. -/
theorem stale_handle_counterexample :
    (AdvertConnectable.on_connected 7 0 AdvertConnectable.State.initial).my_conn = some 7 ∧
    (AdvertConnectable.on_disconnected 8 19
        (AdvertConnectable.on_connected 7 0 AdvertConnectable.State.initial)).calls
      = [Call.conn_ref 7, Call.conn_unref 7] ∧
    (AdvertConnectable.on_disconnected 8 19
        (AdvertConnectable.on_connected 7 0 AdvertConnectable.State.initial)).my_conn
      = none ∧
    releases 7 (ConnParams.on_conn_terminated 8 19
        (ConnParams.on_conn_established (fun _ => 0) 7 0 ConnParams.State.initial)).calls
      = 1 ∧
    (ConnParams.on_conn_terminated 8 19
        (ConnParams.on_conn_established (fun _ => 0) 7 0
          ConnParams.State.initial)).active_conn = none := by
  decide

/-- C23 amended: `on_disconnected` and `on_conn_terminated` do not read their
`conn` argument.  When a connection reference is held they release it, with
one `bt_conn_unref` on the held connection, and set the stored reference to
`NULL`, whichever connection the notification names; when no connection is
held they perform no release and the stored reference stays `NULL`. -/
theorem disconnect_releases_held (conn reason : Nat) (s : AdvertConnectable.State)
    (t : ConnParams.State) :
    (∀ held, s.my_conn = some held →
      (AdvertConnectable.on_disconnected conn reason s).calls
        = s.calls ++ [Call.conn_unref held] ∧
      (AdvertConnectable.on_disconnected conn reason s).my_conn = none) ∧
    (s.my_conn = none →
      (AdvertConnectable.on_disconnected conn reason s).calls = s.calls ∧
      (AdvertConnectable.on_disconnected conn reason s).my_conn = none) ∧
    (∀ held, t.active_conn = some held →
      (ConnParams.on_conn_terminated conn reason t).calls
        = t.calls ++ [Call.conn_unref held] ∧
      (ConnParams.on_conn_terminated conn reason t).active_conn = none) ∧
    (t.active_conn = none →
      (ConnParams.on_conn_terminated conn reason t).calls = t.calls ∧
      (ConnParams.on_conn_terminated conn reason t).active_conn = none) := by
  obtain ⟨a1, a2⟩ := AdvertConnectable.on_disconnected_fields conn reason s
  obtain ⟨b1, b2⟩ := ConnParams.on_conn_terminated_fields conn reason t
  refine ⟨?_, ?_, ?_, ?_⟩
  · intro held h; rw [h] at a2; exact ⟨a2, a1⟩
  · intro h; rw [h] at a2; exact ⟨by simpa using a2, a1⟩
  · intro held h; rw [h] at b2; exact ⟨b2, b1⟩
  · intro h; rw [h] at b2; exact ⟨by simpa using b2, b1⟩

/-- C23 amended, instance: connection 7 is held, the notification names 7, and
a second notification arrives with nothing held. -/
theorem disconnect_releases_held_witness :
    (AdvertConnectable.on_connected 7 0 AdvertConnectable.State.initial).my_conn = some 7 ∧
    (AdvertConnectable.on_disconnected 7 19
        (AdvertConnectable.on_connected 7 0 AdvertConnectable.State.initial)).my_conn
      = none ∧
    (AdvertConnectable.on_disconnected 7 19 AdvertConnectable.State.initial).calls
      = AdvertConnectable.State.initial.calls :=
  ⟨by decide,
   ((disconnect_releases_held 7 19
      (AdvertConnectable.on_connected 7 0 AdvertConnectable.State.initial)
      ConnParams.State.initial).1 7 (by decide)).2,
   ((disconnect_releases_held 7 19 AdvertConnectable.State.initial
      ConnParams.State.initial).2.1 (by decide)).1⟩

end BtConn

/-! # The two whitelisting variants -/

namespace WhitelistingText

open Whitelisting

theorem sameRadio_refl (s : State) : sameRadio s s := ⟨rfl, rfl, rfl, rfl⟩

/-- The two bond callbacks do the same to states that differ in the log only. -/
theorem cb_agree (env : Env) (b : bt_bond_info) (c : Int) (s t : State)
    (h : sameRadio s t) :
    (setup_accept_list_cb env b (c, s)).1 = (add_bonded_device_to_whitelist env b (c, t)).1 ∧
    sameRadio (setup_accept_list_cb env b (c, s)).2
      (add_bonded_device_to_whitelist env b (c, t)).2 := by
  obtain ⟨h1, h2, h3, h4⟩ := h
  by_cases hc : c < 0
  · simp [setup_accept_list_cb, add_bonded_device_to_whitelist, hc, sameRadio, h1, h2, h3, h4]
  · by_cases h0 : env t.calls.length = 0 <;>
    simp [setup_accept_list_cb, add_bonded_device_to_whitelist, hc, sameRadio,
      bt_le_filter_accept_list_add, h1, h2, h3, h4, h0]

/-- The two enumerations do the same to states that differ in the log only. -/
theorem foreach_agree (env : Env) (bonds : List bt_bond_info) :
    ∀ (c : Int) (s t : State), sameRadio s t →
      (bt_foreach_bond bonds (setup_accept_list_cb env) (c, s)).1
        = (bt_foreach_bond bonds (add_bonded_device_to_whitelist env) (c, t)).1 ∧
      sameRadio (bt_foreach_bond bonds (setup_accept_list_cb env) (c, s)).2
        (bt_foreach_bond bonds (add_bonded_device_to_whitelist env) (c, t)).2 := by
  induction bonds with
  | nil => intro c s t h; exact ⟨rfl, h⟩
  | cons b bs ih =>
    intro c s t h
    rw [foreach_cons, foreach_cons]
    obtain ⟨g1, g2⟩ := cb_agree env b c s t h
    generalize setup_accept_list_cb env b (c, s) = x at g1 g2
    generalize add_bonded_device_to_whitelist env b (c, t) = y at g1 g2
    obtain ⟨c1, s1⟩ := x
    obtain ⟨c2, t1⟩ := y
    simp only at g1 g2
    subst g1
    exact ih c1 s1 t1 g2

/-- The two rebuilds return the same value and leave the same radio state. -/
theorem setup_agree (env : Env) (bonds : List bt_bond_info) (s : State) :
    (setup_accept_list env bonds s).1 = (configure_whitelist env bonds s).1 ∧
    sameRadio (setup_accept_list env bonds s).2 (configure_whitelist env bonds s).2 := by
  by_cases h0 : env s.calls.length = 0
  · have h1 : setup_accept_list env bonds s
        = bt_foreach_bond bonds (setup_accept_list_cb env)
            (0, { s.record Call.filter_accept_list_clear with accept_list := [] }) := by
      simp [setup_accept_list, bt_le_filter_accept_list_clear, h0]
    rw [h1, configure_whitelist_clear_ok env bonds s h0]
    exact foreach_agree env bonds 0 _ _ (sameRadio_refl _)
  · simp [setup_accept_list, configure_whitelist, bt_le_filter_accept_list_clear, h0,
      sameRadio]

/-- The two handlers leave the same radio state. -/
theorem handler_agree (env : Env) (bonds : List bt_bond_info) (s : State) :
    sameRadio (adv_work_handler env bonds s) (advertisement_handler env bonds s) := by
  by_cases hpair : s.pairing_mode_enabled = true
  · by_cases h0 : env s.calls.length = 0 <;>
    by_cases h1 : env (s.calls.length + 1) = 0 <;>
    simp [adv_work_handler, advertisement_handler, bt_le_filter_accept_list_clear,
      bt_le_adv_start, hpair, h0, h1, sameRadio]
  · have hpair' : s.pairing_mode_enabled = false := by simpa using hpair
    obtain ⟨g1, g2⟩ := setup_agree env bonds s
    simp only [adv_work_handler, advertisement_handler, hpair', Bool.false_eq_true, if_false]
    generalize setup_accept_list env bonds s = x at g1 g2
    generalize configure_whitelist env bonds s = y at g1 g2
    obtain ⟨c1, s1⟩ := x
    obtain ⟨c2, t1⟩ := y
    simp only at g1 g2
    subst g1
    obtain ⟨e1, e2, e3, e4⟩ := g2
    by_cases hneg : c1 < 0
    · simp [hneg, sameRadio, e1, e2, e3, e4]
    · by_cases hz : c1 = 0 <;>
      by_cases hr : env t1.calls.length = 0 <;>
      simp [hneg, hz, bt_le_adv_start, hr, sameRadio, e1, e2, e3, e4]

end WhitelistingText

namespace WhitelistingText

open Whitelisting

/-- C24: for every initial state (pairing flag set or not), bond list and
outcome of the clear, add and start calls, `adv_work_handler` (text.c) and
`advertisement_handler` (main.c) issue the same sequence of stack calls, start
advertising in the same mode, and end with the same pairing flag and the same
accept list; `setup_accept_list` and `configure_whitelist` return the same
value after the same calls. -/
theorem handler_variants_agree (env : Env) (bonds : List bt_bond_info) (s : State) :
    callsSince s (adv_work_handler env bonds s)
      = callsSince s (advertisement_handler env bonds s) ∧
    (startedParams (callsSince s (adv_work_handler env bonds s))).map AdvParam.mode
      = (startedParams (callsSince s (advertisement_handler env bonds s))).map
          AdvParam.mode ∧
    (adv_work_handler env bonds s).pairing_mode_enabled
      = (advertisement_handler env bonds s).pairing_mode_enabled ∧
    (adv_work_handler env bonds s).accept_list
      = (advertisement_handler env bonds s).accept_list ∧
    (setup_accept_list env bonds s).1 = (configure_whitelist env bonds s).1 ∧
    callsSince s (setup_accept_list env bonds s).2
      = callsSince s (configure_whitelist env bonds s).2 := by
  obtain ⟨h1, _, h3, h4⟩ := handler_agree env bonds s
  obtain ⟨g1, _, _, _, g4⟩ := setup_agree env bonds s
  have hc : callsSince s (adv_work_handler env bonds s)
      = callsSince s (advertisement_handler env bonds s) := by
    simp only [callsSince, h4]
  refine ⟨hc, by rw [hc], h1, h3, g1, ?_⟩
  simp only [callsSince, g4]

/-- C24 instance: three bonds, the 2nd add fails; both variants stop after that
add and both rebuilds return -5. -/
theorem handler_variants_agree_witness :
    callsSince State.initial (adv_work_handler (envFailAt 2 (-22)) threeBonds State.initial)
      = [Call.filter_accept_list_clear, Call.filter_accept_list_add (bond 1).addr,
         Call.filter_accept_list_add (bond 2).addr] ∧
    callsSince State.initial (adv_work_handler (envFailAt 2 (-22)) threeBonds State.initial)
      = callsSince State.initial
          (advertisement_handler (envFailAt 2 (-22)) threeBonds State.initial) ∧
    (setup_accept_list (envFailAt 2 (-22)) threeBonds State.initial).1 = -5 :=
  ⟨by decide,
   (handler_variants_agree (envFailAt 2 (-22)) threeBonds State.initial).1,
   by decide⟩

end WhitelistingText

/-! # GATT server sample: the command write -/

namespace GattServer

/-- What `write_cmd` does, for every write and every outcome of the send: a
write whose length is not 1 is refused and changes nothing; a non-zero byte is
answered by an indication when `indicate_enabled` is set and by `-EACCES`
otherwise; a zero byte is answered by a notification when `indicate_enabled`
is set and by `-EACCES` otherwise.  `notify_enabled` is not read. -/
theorem write_cmd_cases (env : Env) (buf : List Nat) (offset flags : Nat) (s : State) :
    (buf.length ≠ 1 →
      write_cmd env buf offset flags s = (BT_GATT_ERR BT_ATT_ERR_INVALID_ATTRIBUTE_LEN, s)) ∧
    (∀ b, buf = [b] → s.indicate_enabled = false →
      (write_cmd env buf offset flags s).1 = - EACCES ∧
      (write_cmd env buf offset flags s).2.calls = s.calls) ∧
    (∀ b, buf = [b] → s.indicate_enabled = true →
      (write_cmd env buf offset flags s).1 = env s.calls.length ∧
      (write_cmd env buf offset flags s).2.calls
        = s.calls ++ [if b % 256 ≠ 0 then Call.gatt_indicate else Call.gatt_notify]) := by
  refine ⟨?_, ?_, ?_⟩
  · intro h; simp [write_cmd, h]
  · intro b hb hi
    subst hb
    by_cases hz : b % 256 = 0 <;> simp [write_cmd, hz, hi, State.logf]
  · intro b hb hi
    subst hb
    by_cases hz : b % 256 = 0 <;>
    simp [write_cmd, hz, hi, State.logf, bt_gatt_indicate, bt_gatt_notify]

/-- C25 fails on the code.  A client that enabled notifications only writes
the byte 0: `write_cmd` returns `-EACCES` and sends nothing, although
`notify_enabled` is true.  A client that enabled indications only writes the
byte 0: a notification is sent, although `notify_enabled` is false.  The
zero-byte branch tests `indicate_enabled`. -/
theorem notify_gate_reads_indicate_flag :
    (notifyOnly.notify_enabled = true ∧ notifyOnly.indicate_enabled = false ∧
      (write_cmd (fun _ => 0) [0] 0 0 notifyOnly).1 = - EACCES ∧
      (write_cmd (fun _ => 0) [0] 0 0 notifyOnly).2.calls = []) ∧
    (indicateOnly.notify_enabled = false ∧ indicateOnly.indicate_enabled = true ∧
      (write_cmd (fun _ => 0) [0] 0 0 indicateOnly).1 = 0 ∧
      (write_cmd (fun _ => 0) [0] 0 0 indicateOnly).2.calls = [Call.gatt_notify]) := by
  decide

end GattServer

/-! # GATT read/write sample: the write -/

namespace MyService

/-- C27: `on_write` with `offset ≠ 0` or `len ≠ 1` returns the
invalid-attribute-length error and changes nothing: `stored_value` is as it
was and the registered callback is not called.  With `offset = 0` and the one
byte `b` it sets `stored_value` to `b`, calls the registered `on_write`
callback, if there is one, exactly once with `b`, and returns 1; a read that
follows yields the byte just written. -/
theorem on_write_validated (buf : List Nat) (offset flags b len : Nat) (s : State) :
    ((offset ≠ 0 ∨ buf.length ≠ 1) →
      on_write buf offset flags s = (BT_GATT_ERR BT_ATT_ERR_INVALID_ATTRIBUTE_LEN, s) ∧
      BT_GATT_ERR BT_ATT_ERR_INVALID_ATTRIBUTE_LEN = -13) ∧
    (b < 256 →
      (on_write [b] 0 flags s).1 = 1 ∧
      (on_write [b] 0 flags s).2.stored_value = b ∧
      (on_write [b] 0 flags s).2.cb_calls
        = s.cb_calls ++ (match s.service_cb_on_write with
            | some f => [(f, b)]
            | none => []) ∧
      (on_write [b] 0 flags s).2.service_cb_on_write = s.service_cb_on_write ∧
      (1 ≤ len → (on_read len 0 (on_write [b] 0 flags s).2).1 = (1, [b]))) := by
  constructor
  · intro h
    refine ⟨?_, rfl⟩
    simp only [on_write, h, if_true]
  · intro hb
    have hmod : b % 256 = b := Nat.mod_eq_of_lt hb
    cases hcb : s.service_cb_on_write with
    | none =>
      refine ⟨?_, ?_, ?_, ?_, ?_⟩ <;>
        simp [on_write, on_read, bt_gatt_attr_read, State.logf, hcb, hmod]
    | some f =>
      refine ⟨?_, ?_, ?_, ?_, ?_⟩ <;>
        simp [on_write, on_read, bt_gatt_attr_read, State.logf, hcb, hmod]

/-- C27 instance: the sample registers `on_value_written`; a write at offset 1
is refused, the one-byte write of 42 at offset 0 is stored and reported. -/
theorem on_write_validated_witness :
    ((1 : Nat) ≠ 0 ∨ [42].length ≠ 1) ∧
    on_write [42] 1 0 (my_service_init (some (some on_value_written)) State.initial).2
      = (BT_GATT_ERR BT_ATT_ERR_INVALID_ATTRIBUTE_LEN,
          (my_service_init (some (some on_value_written)) State.initial).2) ∧
    (42 : Nat) < 256 ∧
    (on_write [42] 0 0
        (my_service_init (some (some on_value_written)) State.initial).2).2.cb_calls
      = [(on_value_written, 42)] :=
  ⟨Or.inl (by decide),
   ((on_write_validated [42] 1 0 42 1
      (my_service_init (some (some on_value_written)) State.initial).2).1
      (Or.inl (by decide))).1,
   by decide,
   ((on_write_validated [42] 0 0 42 1
      (my_service_init (some (some on_value_written)) State.initial).2).2
      (by decide)).2.2.1⟩

end MyService

/-! # UART command line: the buffer -/

namespace UartCli

/-- Printing changes neither the buffer nor its fill level. -/
theorem print_fields (msg : Out) (s : State) :
    (print msg s).cmd_buf = s.cmd_buf ∧ (print msg s).cmd_len = s.cmd_len :=
  ⟨rfl, rfl⟩

/-- Running a command leaves a buffer of 128 bytes, and `cmd_len = 0` when the
command restarted the program. -/
theorem process_command_buf (cmd : List Nat) (s : State)
    (h : s.cmd_buf.length = CMD_BUF_SIZE) :
    (process_command cmd s).2.cmd_buf.length = CMD_BUF_SIZE ∧
    ((process_command cmd s).1 = true → (process_command cmd s).2.cmd_len = 0) := by
  unfold process_command
  split_ifs <;> simp [print, boot, sys_reboot, State.initial, h]

/-- A store at an index inside the array succeeds and changes one cell. -/
theorem store_inside (s : State) (i v : Nat) (h : i < s.cmd_buf.length) :
    store s i v = some { s with cmd_buf := s.cmd_buf.set i v } := by
  simp [store, h]

/-- One callback from a state within the array: every store it makes is inside
the array and the state it leaves is within the array again. -/
theorem uart_cb_inBounds (e : UartEvent) (s : State) (h : InBounds s) :
    ∃ s', uart_cb e s = some s' ∧ InBounds s' := by
  obtain ⟨hbuf, hlen⟩ := h
  have hsize : CMD_BUF_SIZE = 128 := rfl
  have hidx : s.cmd_len < s.cmd_buf.length := by rw [hbuf, hsize]; rw [hsize] at hlen; omega
  cases e with
  | UART_RX_RDY c =>
    by_cases hnl : c = 13 ∨ c = 10
    · obtain ⟨hp1, hp2⟩ := process_command_buf (cstring (s.cmd_buf.set s.cmd_len 0))
        { s with cmd_buf := s.cmd_buf.set s.cmd_len 0 } (by simpa using hbuf)
      simp only [uart_cb, hnl, if_true, store_inside s _ _ hidx]
      generalize process_command (cstring (s.cmd_buf.set s.cmd_len 0))
        { s with cmd_buf := s.cmd_buf.set s.cmd_len 0 } = r at hp1 hp2
      obtain ⟨restarted, s1⟩ := r
      cases restarted with
      | true =>
        refine ⟨s1, rfl, hp1, ?_⟩
        have := hp2 rfl
        simp only at this
        rw [this]; exact Nat.zero_le _
      | false =>
        refine ⟨_, rfl, ?_, ?_⟩
        · simpa [print] using hp1
        · simp [print]
    · by_cases hbs : c = 8 ∨ c = 127
      · by_cases hpos : s.cmd_len > 0
        · refine ⟨_, by simp only [uart_cb, hnl, hbs, hpos, if_true, if_false]; rfl, ?_, ?_⟩
          · simpa [print] using hbuf
          · simp only [print]; omega
        · exact ⟨s, by simp only [uart_cb, hnl, hbs, hpos, if_true, if_false], hbuf, hlen⟩
      · by_cases hpr : isprint c = true ∧ s.cmd_len < CMD_BUF_SIZE - 1
        · refine ⟨_, by simp only [uart_cb, hnl, hbs, hpr, and_self, if_true, if_false,
            store_inside s _ _ hidx]; rfl, ?_, ?_⟩
          · simpa [print] using hbuf
          · have := hpr.2
            simp only [print]; omega
        · exact ⟨s, by simp only [uart_cb, hnl, hbs, hpr, if_false], hbuf, hlen⟩
  | UART_RX_DISABLED => exact ⟨_, rfl, hbuf, hlen⟩
  | other => exact ⟨s, rfl, hbuf, hlen⟩

/-- Every sequence of callbacks from a state within the array runs without an
out-of-bounds store and ends within the array. -/
theorem uart_run_inBounds (es : List UartEvent) :
    ∀ s : State, InBounds s → ∃ s', uart_run es s = some s' ∧ InBounds s' := by
  induction es with
  | nil => intro s h; exact ⟨s, rfl, h⟩
  | cons e es ih =>
    intro s h
    obtain ⟨s1, h1, hb1⟩ := uart_cb_inBounds e s h
    obtain ⟨s2, h2, hb2⟩ := ih s1 hb1
    exact ⟨s2, by simp only [uart_run, h1, h2], hb2⟩

theorem inBounds_initial : InBounds State.initial := by
  constructor
  · simp [State.initial]
  · simp [State.initial]

/-- C26: every sequence of events processed by `uart_cb` from reset runs
without a store outside `cmd_buf`, and after it (so after every character)
`cmd_len ≤ CMD_BUF_SIZE - 1 = 127` and the buffer has its 128 bytes; a
backspace at `cmd_len = 0` leaves the state as it is, and a line end resets
`cmd_len` to 0. -/
theorem cmd_buf_in_bounds (es : List UartEvent) (c : Nat) (s : State) :
    (∃ s', uart_run es State.initial = some s' ∧
      s'.cmd_len ≤ CMD_BUF_SIZE - 1 ∧ CMD_BUF_SIZE - 1 = 127 ∧
      s'.cmd_buf.length = CMD_BUF_SIZE) ∧
    (s.cmd_len = 0 → (c = 8 ∨ c = 127) →
      uart_cb (UartEvent.UART_RX_RDY c) s = some s) ∧
    (InBounds s → (c = 13 ∨ c = 10) →
      ∃ s', uart_cb (UartEvent.UART_RX_RDY c) s = some s' ∧ s'.cmd_len = 0) := by
  refine ⟨?_, ?_, ?_⟩
  · obtain ⟨s', h1, hb, hl⟩ := uart_run_inBounds es State.initial inBounds_initial
    exact ⟨s', h1, hl, rfl, hb⟩
  · intro h0 hbs
    have hnl : ¬ (c = 13 ∨ c = 10) := by omega
    simp only [uart_cb, hnl, hbs, h0, if_true, if_false, gt_iff_lt, lt_self_iff_false]
  · intro hb hnl
    have hidx : s.cmd_len < s.cmd_buf.length := by
      have h1 := hb.1
      have h2 := hb.2
      have hsize : CMD_BUF_SIZE = 128 := rfl
      rw [hsize] at h1 h2
      omega
    obtain ⟨_, hp2⟩ := process_command_buf (cstring (s.cmd_buf.set s.cmd_len 0))
      { s with cmd_buf := s.cmd_buf.set s.cmd_len 0 } (by simpa using hb.1)
    simp only [uart_cb, hnl, if_true, store_inside s _ _ hidx]
    generalize process_command (cstring (s.cmd_buf.set s.cmd_len 0))
      { s with cmd_buf := s.cmd_buf.set s.cmd_len 0 } = r at hp2
    obtain ⟨restarted, s1⟩ := r
    cases restarted with
    | true => exact ⟨s1, rfl, hp2 rfl⟩
    | false => exact ⟨_, rfl, rfl⟩

set_option maxRecDepth 8000 in
/-- C26 instance: `hi`, two backspaces and a third one on the empty line, then
`hello` and a carriage return; the line is processed and `cmd_len` is 0. -/
theorem cmd_buf_in_bounds_witness :
    (uart_run typedLine State.initial).map (fun s' => s'.cmd_len) = some 0 ∧
    (uart_run typedLine State.initial).map (fun s' => s'.out.getLast?)
      = some (some Out.prompt) ∧
    (∃ s', uart_run typedLine State.initial = some s' ∧
      s'.cmd_len ≤ CMD_BUF_SIZE - 1 ∧ CMD_BUF_SIZE - 1 = 127 ∧
      s'.cmd_buf.length = CMD_BUF_SIZE) :=
  ⟨by decide, by decide, (cmd_buf_in_bounds typedLine 8 State.initial).1⟩

end UartCli
